import Mathlib

/-!
# Verification of the gimp-mcp-pro framed RPC core

Shallow embedding of the communication layer of the repository:

* `src/src/gimp_mcp_pro/bridge.py` — the client (`GimpBridge`): length-prefixed
  frame codec, `_recv_exact`, `_receive_length_prefixed`, `_send`,
  `send_command`, `connect`/`disconnect`, id assignment.
* `src/gimp_plugin/gimp_mcp_plugin.py` — the server (`MCPProPlugin`):
  `_recv_exact`, `_receive_message`, `_send_message`, `_dispatch`,
  `_handle_client`.

Python strings are modelled as lists of Unicode code points (`List Nat`),
byte streams as `List Nat` with every element below 256.  The stdlib JSON
codec (`json.dumps` with its defaults — `ensure_ascii=True`, separators
`", "` / `": "` — and `json.loads`) is modelled concretely for values built
from `null`, booleans, integers, strings, arrays and objects, which is the
value domain the bridge exchanges.
-/

set_option maxHeartbeats 1000000

namespace GimpMcp

/-- A Python string: a list of Unicode code points. -/
abbrev PyStr := List Nat

/-- Convert a Lean string literal to its code-point list (helper for
concrete inputs; Lean chars are exactly the Unicode scalar values). -/
def pyOf (s : String) : PyStr := s.data.map Char.toNat

/-- Constant `HEADER_SIZE` from both `bridge.py` and `gimp_mcp_plugin.py`. -/
def HEADER_SIZE : Nat := 4

/-- Constant `MAX_MESSAGE_SIZE = 100 * 1024 * 1024` from both sides. -/
def MAX_MESSAGE_SIZE : Nat := 100 * 1024 * 1024

/-- Constant `RECONNECT_DELAYS = [0.5, 1.0, 2.0, 4.0, 8.0]` from `bridge.py`. -/
def RECONNECT_DELAYS : List ℚ := [1/2, 1, 2, 4, 8]

/-- Constant `DEFAULT_TIMEOUT = 30.0` from `bridge.py`. -/
def DEFAULT_TIMEOUT : ℚ := 30

/-- Model of `struct.pack(">I", n)`: 4-byte big-endian bytes of `n < 2^32`. -/
def be32 (n : Nat) : List Nat :=
  [n / 2 ^ 24 % 256, n / 2 ^ 16 % 256, n / 2 ^ 8 % 256, n % 256]

/-- Model of `struct.unpack(">I", b)[0]` on a 4-byte string. -/
def be32val (b : List Nat) : Nat :=
  match b with
  | [a, b, c, d] => a * 2 ^ 24 + b * 2 ^ 16 + c * 2 ^ 8 + d
  | _ => 0

theorem be32val_be32 (n : Nat) (h : n < 2 ^ 32) : be32val (be32 n) = n := by
  simp only [be32, be32val]
  omega

theorem be32_length (n : Nat) : (be32 n).length = 4 := rfl

/-! ## The JSON value domain

`Json` models the Python values the bridge serializes: `None`, `bool`,
`int`, `str`, `list`, `dict` (string keys).  Arrays and objects are their
own inductives so that all recursions and inductions are structural. -/

mutual
inductive Json where
  | null : Json
  | bool : Bool → Json
  | num : Int → Json
  | str : PyStr → Json
  | arr : JsonArr → Json
  | obj : JsonObj → Json
  deriving DecidableEq

inductive JsonArr where
  | nil : JsonArr
  | cons : Json → JsonArr → JsonArr
  deriving DecidableEq

inductive JsonObj where
  | nil : JsonObj
  | cons : PyStr → Json → JsonObj → JsonObj
  deriving DecidableEq
end

/-- Keys of an object, in order. -/
def JsonObj.keys : JsonObj → List PyStr
  | .nil => []
  | .cons k _ tl => k :: tl.keys

/-- Python `dict.get`: value of the first binding of `k`, if any.
(Objects built by `json.loads` never hold duplicate keys, so first
and last occurrence agree on them.) -/
def JsonObj.get : JsonObj → PyStr → Option Json
  | .nil, _ => none
  | .cons k v tl, k' => if k = k' then some v else tl.get k'

/-- Python `dict[k] = v`: replace the first binding of `k` in place, else
append the new binding (insertion order is preserved, as in CPython). -/
def JsonObj.insert : JsonObj → PyStr → Json → JsonObj
  | .nil, k, v => .cons k v .nil
  | .cons k0 v0 tl, k, v =>
      if k0 = k then .cons k0 v tl else .cons k0 v0 (tl.insert k v)

/-- A code point is a Unicode scalar value (no surrogates). -/
def scalarCP (c : Nat) : Bool := (c < 0xD800 || 0xDFFF < c) && c < 0x110000

/-- A Python string all of whose code points are scalar values: exactly
the strings a real (non-pathological) Python `str` payload holds. -/
def wfStr (s : PyStr) : Bool := s.all scalarCP

mutual
/-- Well-formedness of a value as a Python payload: every string is made
of scalar values and no object has duplicate keys (a Python `dict`
cannot).  Quantification domain for the round-trip law. -/
def Json.wf : Json → Bool
  | .null => true
  | .bool _ => true
  | .num _ => true
  | .str s => wfStr s
  | .arr a => a.wf
  | .obj o => o.wf && decide o.keys.Nodup

def JsonArr.wf : JsonArr → Bool
  | .nil => true
  | .cons v tl => v.wf && tl.wf

def JsonObj.wf : JsonObj → Bool
  | .nil => true
  | .cons k v tl => wfStr k && v.wf && tl.wf
end

/-! ## `json.dumps` (stdlib model, `ensure_ascii=True`, default separators) -/

/-- Lowercase hex digit character for `d < 16`. -/
def hexDigit (d : Nat) : Nat := if d < 10 then 48 + d else 87 + d

/-- Four lowercase hex digits of `n < 0x10000` (the `\uXXXX` payload). -/
def toHex4 (n : Nat) : List Nat :=
  [hexDigit (n / 4096 % 16), hexDigit (n / 256 % 16), hexDigit (n / 16 % 16),
   hexDigit (n % 16)]

/-- Stdlib `json.encoder` ASCII escaping of one code point: the two-character
escapes for the quote, backslash and the C0 controls with short forms, `\uXXXX`
for other controls and all non-ASCII, a surrogate pair for astral code
points, and the character itself for printable ASCII. -/
def escapeChar (c : Nat) : List Nat :=
  if c = 34 then [92, 34]
  else if c = 92 then [92, 92]
  else if c = 8 then [92, 98]
  else if c = 12 then [92, 102]
  else if c = 10 then [92, 110]
  else if c = 13 then [92, 114]
  else if c = 9 then [92, 116]
  else if c < 32 then 92 :: 117 :: toHex4 c
  else if c ≤ 126 then [c]
  else if c < 65536 then 92 :: 117 :: toHex4 c
  else
    (92 :: 117 :: toHex4 (55296 + (c - 65536) / 1024)) ++
      (92 :: 117 :: toHex4 (56320 + (c - 65536) % 1024))

/-- Escape every code point of a string body. -/
def escapeStr : PyStr → List Nat
  | [] => []
  | c :: tl => escapeChar c ++ escapeStr tl

/-- Decimal digit characters of `n`, most significant first (fuel-driven so
that the kernel can evaluate it; `natRepr` supplies sufficient fuel). -/
def natDigitsAux : Nat → Nat → List Nat
  | 0, _ => []
  | fuel + 1, n =>
      if n < 10 then [48 + n] else natDigitsAux fuel (n / 10) ++ [48 + n % 10]

/-- Decimal representation of a natural number. -/
def natRepr (n : Nat) : List Nat := natDigitsAux (n + 1) n

/-- Python `repr` of an `int` (how `json.dumps` writes integers). -/
def intRepr : Int → List Nat
  | .ofNat n => natRepr n
  | .negSucc m => 45 :: natRepr (m + 1)

mutual
/-- Model of `json.dumps(value)` as a code-point list: with `ensure_ascii=True`
the output is pure ASCII. Default separators are `", "` and `": "`. -/
def dumpsVal : Json → List Nat
  | .null => [110, 117, 108, 108]
  | .bool true => [116, 114, 117, 101]
  | .bool false => [102, 97, 108, 115, 101]
  | .num n => intRepr n
  | .str s => 34 :: (escapeStr s ++ [34])
  | .arr a => 91 :: dumpsArrFirst a
  | .obj o => 123 :: dumpsObjFirst o

/-- Body of a dumped list: first element onward, up to and incl. `]`. -/
def dumpsArrFirst : JsonArr → List Nat
  | .nil => [93]
  | .cons v tl => dumpsVal v ++ dumpsArrRest tl

/-- Later elements of a dumped list, each preceded by `", "`. -/
def dumpsArrRest : JsonArr → List Nat
  | .nil => [93]
  | .cons v tl => 44 :: 32 :: (dumpsVal v ++ dumpsArrRest tl)

/-- Body of a dumped dict: first pair onward, up to and incl. `}`. -/
def dumpsObjFirst : JsonObj → List Nat
  | .nil => [125]
  | .cons k v tl =>
      34 :: (escapeStr k ++ 34 :: 58 :: 32 :: (dumpsVal v ++ dumpsObjRest tl))

/-- Later pairs of a dumped dict, each preceded by `", "`. -/
def dumpsObjRest : JsonObj → List Nat
  | .nil => [125]
  | .cons k v tl =>
      44 :: 32 :: 34 ::
        (escapeStr k ++ 34 :: 58 :: 32 :: (dumpsVal v ++ dumpsObjRest tl))
end

/-! ## UTF-8 (`str.encode("utf-8")` / `bytes.decode("utf-8")`) -/

/-- UTF-8 bytes of one scalar value. -/
def utf8Char (c : Nat) : List Nat :=
  if c < 128 then [c]
  else if c < 2048 then [192 + c / 64, 128 + c % 64]
  else if c < 65536 then [224 + c / 4096, 128 + c / 64 % 64, 128 + c % 64]
  else [240 + c / 262144, 128 + c / 4096 % 64, 128 + c / 64 % 64, 128 + c % 64]

/-- Model of `str.encode("utf-8")`. -/
def utf8Encode : PyStr → List Nat
  | [] => []
  | c :: tl => utf8Char c ++ utf8Encode tl

/-- Strict UTF-8 decoding (fuel-driven; rejects truncation, stray
continuation bytes, overlong forms, surrogates and values above
U+10FFFF, as `bytes.decode("utf-8")` does). -/
def utf8DecodeAux : Nat → List Nat → Option PyStr
  | _, [] => some []
  | 0, _ :: _ => none
  | fuel + 1, b :: tl =>
    if b < 128 then (utf8DecodeAux fuel tl).map (b :: ·)
    else if b < 194 then none
    else if b < 224 then
      match tl with
      | b2 :: tl2 =>
          if 128 ≤ b2 ∧ b2 < 192 then
            (utf8DecodeAux fuel tl2).map (((b - 192) * 64 + (b2 - 128)) :: ·)
          else none
      | [] => none
    else if b < 240 then
      match tl with
      | b2 :: b3 :: tl3 =>
          if 128 ≤ b2 ∧ b2 < 192 ∧ 128 ≤ b3 ∧ b3 < 192 then
            let c := (b - 224) * 4096 + (b2 - 128) * 64 + (b3 - 128)
            if c < 2048 ∨ (55296 ≤ c ∧ c ≤ 57343) then none
            else (utf8DecodeAux fuel tl3).map (c :: ·)
          else none
      | _ => none
    else if b < 245 then
      match tl with
      | b2 :: b3 :: b4 :: tl4 =>
          if 128 ≤ b2 ∧ b2 < 192 ∧ 128 ≤ b3 ∧ b3 < 192 ∧ 128 ≤ b4 ∧ b4 < 192 then
            let c := (b - 240) * 262144 + (b2 - 128) * 4096 + (b3 - 128) * 64 +
              (b4 - 128)
            if c < 65536 ∨ 1114111 < c then none
            else (utf8DecodeAux fuel tl4).map (c :: ·)
          else none
      | _ => none
    else none

/-- Model of `bytes.decode("utf-8")`. -/
def utf8Decode (l : List Nat) : Option PyStr := utf8DecodeAux l.length l

/-! ## `json.loads` (stdlib model, recursive-descent over code points)

Numbers are covered on their integer-valued grammar (`-?(0|[1-9]\d*)`
with no fraction or exponent part), matching the value domain of `Json`;
everything else follows the stdlib scanner: whitespace handling, the
literals, string escapes incl. surrogate-pair recombination, and dicts
built by in-order insertion. -/

/-- Whitespace characters the scanner skips (space, tab, LF, CR). -/
def isWs (c : Nat) : Bool := c = 32 || c = 9 || c = 10 || c = 13

/-- Drop leading whitespace. -/
def skipWs : List Nat → List Nat
  | [] => []
  | c :: tl => if isWs c then skipWs tl else c :: tl

/-- Value of one hex digit character, upper or lower case. -/
def hexVal (c : Nat) : Option Nat :=
  if 48 ≤ c ∧ c ≤ 57 then some (c - 48)
  else if 97 ≤ c ∧ c ≤ 102 then some (c - 87)
  else if 65 ≤ c ∧ c ≤ 70 then some (c - 55)
  else none

/-- Scan four hex digits (the payload of a `\\uXXXX` escape). -/
def parseHex4 : List Nat → Option (Nat × List Nat)
  | h1 :: h2 :: h3 :: h4 :: tl =>
    match hexVal h1, hexVal h2, hexVal h3, hexVal h4 with
    | some a, some b, some c, some d => some (a * 4096 + b * 256 + c * 16 + d, tl)
    | _, _, _, _ => none
  | _ => none

/-- Translate a single-character escape (the stdlib BACKSLASH table). -/
def simpleEsc (e : Nat) : Option Nat :=
  if e = 34 then some 34
  else if e = 92 then some 92
  else if e = 47 then some 47
  else if e = 98 then some 8
  else if e = 102 then some 12
  else if e = 110 then some 10
  else if e = 114 then some 13
  else if e = 116 then some 9
  else none

/-- A scanned string item: a plain character, or the value of one
`\uXXXX` escape (kept apart so that only escape-adjacent surrogate
halves recombine, exactly as in `py_scanstring`). -/
inductive STok where
  | plain : Nat → STok
  | esc : Nat → STok
  deriving DecidableEq

/-- Code point of a single item, when it does not recombine. -/
def STok.val : STok → Nat
  | .plain c => c
  | .esc u => u

/-- String body scanner (`py_scanstring`), after the opening quote: plain
characters up to the closing quote (control characters rejected,
`strict=True`), single-character escapes, and `\uXXXX` escapes.  Fuel is
spent once per item; callers pass more fuel than the input length. -/
def scanToks : Nat → List Nat → Option (List STok × List Nat)
  | 0, _ => none
  | _ + 1, [] => none
  | fuel + 1, c :: tl =>
    if c = 34 then some ([], tl)
    else if c = 92 then
      match tl with
      | [] => none
      | e :: tl2 =>
        if e = 117 then
          match parseHex4 tl2 with
          | none => none
          | some (u, tl3) =>
              (scanToks fuel tl3).map (fun p => (.esc u :: p.1, p.2))
        else
          match simpleEsc e with
          | some d => (scanToks fuel tl2).map (fun p => (.plain d :: p.1, p.2))
          | none => none
    else if c < 32 then none
    else (scanToks fuel tl).map (fun p => (.plain c :: p.1, p.2))

/-- Recombine a `\uXXXX` high surrogate immediately followed by a
`\uXXXX` low surrogate into one astral code point; all other items
contribute their own value. -/
def mergeToks : List STok → PyStr
  | [] => []
  | .esc u :: .esc u2 :: tl =>
    if 55296 ≤ u ∧ u ≤ 56319 ∧ 56320 ≤ u2 ∧ u2 ≤ 57343 then
      (65536 + (u - 55296) * 1024 + (u2 - 56320)) :: mergeToks tl
    else u :: mergeToks (.esc u2 :: tl)
  | t :: tl => t.val :: mergeToks tl

/-- Full string-body parse: scan items, then recombine surrogate pairs. -/
def parseStrAux (fuel : Nat) (l : List Nat) : Option (PyStr × List Nat) :=
  (scanToks fuel l).map (fun p => (mergeToks p.1, p.2))

/-- Consume a run of decimal digits, extending the accumulator. -/
def parseDigits : List Nat → Nat → Nat × List Nat
  | [], acc => (acc, [])
  | c :: tl, acc =>
      if 48 ≤ c ∧ c ≤ 57 then parseDigits tl (acc * 10 + (c - 48))
      else (acc, c :: tl)

/-- Reject a fraction or exponent continuation after an integer part
(floats are outside the modelled value domain). -/
def parseNumTail (v : Nat) (tl : List Nat) : Option (Nat × List Nat) :=
  match tl with
  | [] => some (v, [])
  | c :: _ => if c = 46 ∨ c = 101 ∨ c = 69 then none else some (v, tl)

/-- Unsigned integer body: `0` alone or a nonzero digit then digits
(the stdlib NUMBER_RE integer part). -/
def parseIntBody (s : List Nat) : Option (Nat × List Nat) :=
  match s with
  | [] => none
  | c :: tl =>
    if c = 48 then parseNumTail 0 tl
    else if 49 ≤ c ∧ c ≤ 57 then
      let p := parseDigits tl (c - 48)
      parseNumTail p.1 p.2
    else none

/-- Fold parsed key/value pairs into a dict by in-order insertion
(CPython `dict[k] = v` per pair: later duplicates overwrite in place). -/
def buildDict : JsonObj → List (PyStr × Json) → JsonObj
  | acc, [] => acc
  | acc, (k, v) :: tl => buildDict (acc.insert k v) tl

/-- Conversion from a parsed element list. -/
def JsonArr.ofList : List Json → JsonArr
  | [] => .nil
  | v :: tl => .cons v (ofList tl)

/-- Back to a plain list. -/
def JsonArr.toList : JsonArr → List Json
  | .nil => []
  | .cons v tl => v :: tl.toList

/-- Pairs of an object, in order. -/
def JsonObj.pairs : JsonObj → List (PyStr × Json)
  | .nil => []
  | .cons k v tl => (k, v) :: tl.pairs

mutual
/-- Scan one JSON value at the current position (`scan_once`): assumes
leading whitespace was already skipped, returns the value and the
unconsumed suffix.  Fuel is spent once per nested scan; any fuel above
the input length is sufficient. -/
def parseVal : Nat → List Nat → Option (Json × List Nat)
  | 0, _ => none
  | fuel + 1, s =>
    match s with
    | 110 :: 117 :: 108 :: 108 :: tl => some (.null, tl)
    | 116 :: 114 :: 117 :: 101 :: tl => some (.bool true, tl)
    | 102 :: 97 :: 108 :: 115 :: 101 :: tl => some (.bool false, tl)
    | 34 :: tl =>
      match parseStrAux (tl.length + 1) tl with
      | none => none
      | some (str1, r1) => some (.str str1, r1)
    | 91 :: tl =>
      match skipWs tl with
      | 93 :: tl2 => some (.arr .nil, tl2)
      | t1 =>
        match parseVal fuel t1 with
        | none => none
        | some (v, r1) =>
          match parseArrRest fuel r1 with
          | none => none
          | some (vs, r2) => some (.arr (.ofList (v :: vs)), r2)
    | 123 :: tl =>
      match skipWs tl with
      | 125 :: tl2 => some (.obj .nil, tl2)
      | 34 :: tl2 =>
        match parseStrAux (tl2.length + 1) tl2 with
        | none => none
        | some (k, r1) =>
          match skipWs r1 with
          | 58 :: r2 =>
            match parseVal fuel (skipWs r2) with
            | none => none
            | some (v, r3) =>
              match parseObjRest fuel r3 with
              | none => none
              | some (ps, r4) =>
                  some (.obj (buildDict .nil ((k, v) :: ps)), r4)
          | _ => none
      | _ => none
    | 45 :: tl =>
      match parseIntBody tl with
      | none => none
      | some (n, r1) => some (.num (-(n : Int)), r1)
    | c :: tl =>
      if 48 ≤ c ∧ c ≤ 57 then
        match parseIntBody (c :: tl) with
        | none => none
        | some (n, r1) => some (.num (n : Int), r1)
      else none
    | [] => none

/-- Elements of an array after the first: `, value` repeated, then `]`. -/
def parseArrRest : Nat → List Nat → Option (List Json × List Nat)
  | 0, _ => none
  | fuel + 1, s =>
    match skipWs s with
    | 93 :: tl => some ([], tl)
    | 44 :: tl =>
      match parseVal fuel (skipWs tl) with
      | none => none
      | some (v, r1) =>
        match parseArrRest fuel r1 with
        | none => none
        | some (vs, r2) => some (v :: vs, r2)
    | _ => none

/-- Pairs of an object after the first: `, "key": value` repeated, `}`. -/
def parseObjRest : Nat → List Nat → Option (List (PyStr × Json) × List Nat)
  | 0, _ => none
  | fuel + 1, s =>
    match skipWs s with
    | 125 :: tl => some ([], tl)
    | 44 :: tl =>
      match skipWs tl with
      | 34 :: tl2 =>
        match parseStrAux (tl2.length + 1) tl2 with
        | none => none
        | some (k, r1) =>
          match skipWs r1 with
          | 58 :: r2 =>
            match parseVal fuel (skipWs r2) with
            | none => none
            | some (v, r3) =>
              match parseObjRest fuel r3 with
              | none => none
              | some (ps, r4) => some ((k, v) :: ps, r4)
          | _ => none
      | _ => none
    | _ => none
end

/-- Model of `json.loads` on a decoded text: skip leading whitespace,
scan one value, and require that only whitespace remains. -/
def loads (s : List Nat) : Option Json :=
  match parseVal (s.length + 1) (skipWs s) with
  | none => none
  | some (v, rest) => if skipWs rest = [] then some v else none

/-- Model of `json.loads(data.decode("utf-8"))` applied to raw bytes:
`none` when either UTF-8 decoding or JSON parsing fails (in Python,
`UnicodeDecodeError` / `json.JSONDecodeError`, both `ValueError`s). -/
def loadsBytes (b : List Nat) : Option Json :=
  match utf8Decode b with
  | none => none
  | some s => loads s

/-! ## Round-trip lemmas: strings -/

theorem hexVal_hexDigit (d : Nat) (h : d < 16) : hexVal (hexDigit d) = some d := by
  interval_cases d <;> decide

theorem escapeChar_ne_nil (c : Nat) : escapeChar c ≠ [] := by
  unfold escapeChar
  repeat' split
  all_goals simp [toHex4]

theorem escapeStr_length_ge (s : PyStr) : s.length ≤ (escapeStr s).length := by
  induction s with
  | nil => simp [escapeStr]
  | cons c tl ih =>
    have hc : 1 ≤ (escapeChar c).length :=
      List.length_pos.mpr (escapeChar_ne_nil c)
    simp only [escapeStr, List.length_append, List.length_cons]
    omega

/-- Reading back four dumped hex digits. -/
theorem parseHex4_toHex4 (u : Nat) (l : List Nat) (hu : u < 65536) :
    parseHex4 (toHex4 u ++ l) = some (u, l) := by
  have h3 : u / 4096 % 16 < 16 := Nat.mod_lt _ (by norm_num)
  have h2 : u / 256 % 16 < 16 := Nat.mod_lt _ (by norm_num)
  have h1 : u / 16 % 16 < 16 := Nat.mod_lt _ (by norm_num)
  have h0 : u % 16 < 16 := Nat.mod_lt _ (by norm_num)
  simp only [toHex4, List.cons_append, List.nil_append, parseHex4,
    hexVal_hexDigit _ h3, hexVal_hexDigit _ h2, hexVal_hexDigit _ h1,
    hexVal_hexDigit _ h0]
  congr 1
  congr 1
  omega

/-- Items produced by scanning the escaped form of one code point. -/
def charToks (c : Nat) : List STok :=
  if c = 34 ∨ c = 92 ∨ c = 8 ∨ c = 12 ∨ c = 10 ∨ c = 13 ∨ c = 9 then [.plain c]
  else if c < 32 then [.esc c]
  else if c ≤ 126 then [.plain c]
  else if c < 65536 then [.esc c]
  else [.esc (55296 + (c - 65536) / 1024), .esc (56320 + (c - 65536) % 1024)]

/-- Items produced by scanning a whole escaped string body. -/
def strToks : PyStr → List STok
  | [] => []
  | c :: tl => charToks c ++ strToks tl

theorem scanToks_escapeStr (s : PyStr) : ∀ (fuel : Nat) (rest : List Nat),
    wfStr s = true → (escapeStr s).length < fuel →
    scanToks fuel (escapeStr s ++ 34 :: rest) = some (strToks s, rest) := by
  induction s with
  | nil =>
    intro fuel rest _ hf
    match fuel, hf with
    | fuel + 1, _ => simp [escapeStr, strToks, scanToks]
  | cons c tl ih =>
    intro fuel rest hwf hf
    have hc : scalarCP c = true := by
      simp only [wfStr, List.all_cons, Bool.and_eq_true] at hwf
      exact hwf.1
    have htl : wfStr tl = true := by
      simp only [wfStr, List.all_cons, Bool.and_eq_true] at hwf
      exact hwf.2
    simp only [scalarCP, Bool.and_eq_true, Bool.or_eq_true, decide_eq_true_eq]
      at hc
    match fuel, hf with
    | fuel + 1, hf =>
      have hsplit : (escapeStr (c :: tl)).length =
          (escapeChar c).length + (escapeStr tl).length := by
        simp [escapeStr]
      have hlc : 1 ≤ (escapeChar c).length :=
        List.length_pos.mpr (escapeChar_ne_nil c)
      have hftl : (escapeStr tl).length < fuel := by omega
      have ihtl := ih fuel rest htl hftl
      simp only [escapeStr, List.append_assoc, strToks]
      by_cases h34 : c = 34
      · subst h34
        rw [show escapeChar 34 = [92, 34] from rfl]
        simp only [List.cons_append, List.nil_append]
        rw [scanToks]
        rw [if_neg (by norm_num), if_pos rfl, if_neg (by norm_num)]
        rw [show simpleEsc 34 = some 34 from rfl, ihtl]
        rw [show charToks 34 = [.plain 34] from rfl]
        rfl
      by_cases h92 : c = 92
      · subst h92
        rw [show escapeChar 92 = [92, 92] from rfl]
        simp only [List.cons_append, List.nil_append]
        rw [scanToks]
        rw [if_neg (by norm_num), if_pos rfl, if_neg (by norm_num)]
        rw [show simpleEsc 92 = some 92 from rfl, ihtl]
        rw [show charToks 92 = [.plain 92] from rfl]
        rfl
      by_cases h8 : c = 8
      · subst h8
        rw [show escapeChar 8 = [92, 98] from rfl]
        simp only [List.cons_append, List.nil_append]
        rw [scanToks]
        rw [if_neg (by norm_num), if_pos rfl, if_neg (by norm_num)]
        rw [show simpleEsc 98 = some 8 from rfl, ihtl]
        rw [show charToks 8 = [.plain 8] from rfl]
        rfl
      by_cases h12 : c = 12
      · subst h12
        rw [show escapeChar 12 = [92, 102] from rfl]
        simp only [List.cons_append, List.nil_append]
        rw [scanToks]
        rw [if_neg (by norm_num), if_pos rfl, if_neg (by norm_num)]
        rw [show simpleEsc 102 = some 12 from rfl, ihtl]
        rw [show charToks 12 = [.plain 12] from rfl]
        rfl
      by_cases h10 : c = 10
      · subst h10
        rw [show escapeChar 10 = [92, 110] from rfl]
        simp only [List.cons_append, List.nil_append]
        rw [scanToks]
        rw [if_neg (by norm_num), if_pos rfl, if_neg (by norm_num)]
        rw [show simpleEsc 110 = some 10 from rfl, ihtl]
        rw [show charToks 10 = [.plain 10] from rfl]
        rfl
      by_cases h13 : c = 13
      · subst h13
        rw [show escapeChar 13 = [92, 114] from rfl]
        simp only [List.cons_append, List.nil_append]
        rw [scanToks]
        rw [if_neg (by norm_num), if_pos rfl, if_neg (by norm_num)]
        rw [show simpleEsc 114 = some 13 from rfl, ihtl]
        rw [show charToks 13 = [.plain 13] from rfl]
        rfl
      by_cases h9 : c = 9
      · subst h9
        rw [show escapeChar 9 = [92, 116] from rfl]
        simp only [List.cons_append, List.nil_append]
        rw [scanToks]
        rw [if_neg (by norm_num), if_pos rfl, if_neg (by norm_num)]
        rw [show simpleEsc 116 = some 9 from rfl, ihtl]
        rw [show charToks 9 = [.plain 9] from rfl]
        rfl
      have hspec : ¬(c = 34 ∨ c = 92 ∨ c = 8 ∨ c = 12 ∨ c = 10 ∨ c = 13 ∨ c = 9) := by
        tauto
      by_cases hctl : c < 32
      · have he : escapeChar c = 92 :: 117 :: toHex4 c := by
          unfold escapeChar
          rw [if_neg h34, if_neg h92, if_neg h8, if_neg h12, if_neg h10,
            if_neg h13, if_neg h9, if_pos hctl]
        have ht : charToks c = [.esc c] := by
          unfold charToks
          rw [if_neg hspec, if_pos hctl]
        rw [he, ht]
        simp only [List.cons_append, List.append_assoc]
        rw [scanToks]
        rw [if_neg (by norm_num), if_pos rfl, if_pos rfl]
        rw [parseHex4_toHex4 _ _ (by omega)]
        dsimp only
        rw [ihtl]
        rfl
      by_cases hprint : c ≤ 126
      · have he : escapeChar c = [c] := by
          unfold escapeChar
          rw [if_neg h34, if_neg h92, if_neg h8, if_neg h12, if_neg h10,
            if_neg h13, if_neg h9, if_neg hctl, if_pos hprint]
        have ht : charToks c = [.plain c] := by
          unfold charToks
          rw [if_neg hspec, if_neg hctl, if_pos hprint]
        rw [he, ht]
        simp only [List.cons_append, List.nil_append]
        rw [scanToks.eq_def]
        dsimp only
        rw [if_neg h34, if_neg h92, if_neg hctl, ihtl]
        rfl
      by_cases hbmp : c < 65536
      · have he : escapeChar c = 92 :: 117 :: toHex4 c := by
          unfold escapeChar
          rw [if_neg h34, if_neg h92, if_neg h8, if_neg h12, if_neg h10,
            if_neg h13, if_neg h9, if_neg hctl, if_neg hprint, if_pos hbmp]
        have ht : charToks c = [.esc c] := by
          unfold charToks
          rw [if_neg hspec, if_neg hctl, if_neg hprint, if_pos hbmp]
        rw [he, ht]
        simp only [List.cons_append, List.append_assoc]
        rw [scanToks]
        rw [if_neg (by norm_num), if_pos rfl, if_pos rfl]
        rw [parseHex4_toHex4 _ _ hbmp]
        dsimp only
        rw [ihtl]
        rfl
      · have he : escapeChar c =
            (92 :: 117 :: toHex4 (55296 + (c - 65536) / 1024)) ++
              (92 :: 117 :: toHex4 (56320 + (c - 65536) % 1024)) := by
          unfold escapeChar
          rw [if_neg h34, if_neg h92, if_neg h8, if_neg h12, if_neg h10,
            if_neg h13, if_neg h9, if_neg hctl, if_neg hprint, if_neg hbmp]
        have ht : charToks c =
            [.esc (55296 + (c - 65536) / 1024), .esc (56320 + (c - 65536) % 1024)] := by
          unfold charToks
          rw [if_neg hspec, if_neg hctl, if_neg hprint, if_neg hbmp]
        have hdiv : (c - 65536) / 1024 < 1024 := by omega
        have hmod : (c - 65536) % 1024 < 1024 := Nat.mod_lt _ (by norm_num)
        have hlen12 : (escapeChar c).length = 12 := by
          rw [he]
          simp [toHex4]
        obtain ⟨f, rfl⟩ : ∃ f, fuel = f + 1 := ⟨fuel - 1, by omega⟩
        have ihtl2 := ih f rest htl (by omega)
        rw [he, ht]
        simp only [List.cons_append, List.append_assoc]
        rw [scanToks]
        rw [if_neg (by norm_num), if_pos rfl, if_pos rfl]
        rw [parseHex4_toHex4 _ _ (by omega)]
        dsimp only
        rw [scanToks]
        rw [if_neg (by norm_num), if_pos rfl, if_pos rfl]
        rw [parseHex4_toHex4 _ _ (by omega)]
        dsimp only
        rw [ihtl2]
        rfl

/-- Items headed by a plain character never recombine. -/
theorem mergeToks_plain (c : Nat) (ts : List STok) :
    mergeToks (.plain c :: ts) = c :: mergeToks ts := by
  rcases ts with _ | ⟨h, t⟩
  · rfl
  · cases h <;> rfl

/-- Items headed by an escape outside the high-surrogate range never
recombine. -/
theorem mergeToks_esc (u : Nat) (ts : List STok)
    (h : ¬(55296 ≤ u ∧ u ≤ 56319)) :
    mergeToks (.esc u :: ts) = u :: mergeToks ts := by
  rcases ts with _ | ⟨h2, t⟩
  · rfl
  · cases h2 with
    | plain c2 => rfl
    | esc u2 =>
      rw [mergeToks]
      rw [if_neg (by tauto)]

/-- Recombining the items of a well-formed string gives the string back. -/
theorem mergeToks_strToks (s : PyStr) (hwf : wfStr s = true) :
    mergeToks (strToks s) = s := by
  induction s with
  | nil => rfl
  | cons c tl ih =>
    have hc : scalarCP c = true := by
      simp only [wfStr, List.all_cons, Bool.and_eq_true] at hwf
      exact hwf.1
    have htl : wfStr tl = true := by
      simp only [wfStr, List.all_cons, Bool.and_eq_true] at hwf
      exact hwf.2
    simp only [scalarCP, Bool.and_eq_true, Bool.or_eq_true, decide_eq_true_eq]
      at hc
    have ihtl := ih htl
    simp only [strToks]
    by_cases hast : c < 65536
    · have hplainesc : charToks c = [.plain c] ∨ charToks c = [.esc c] := by
        unfold charToks
        repeat' split
        all_goals simp
      have hnothi : ¬(55296 ≤ c ∧ c ≤ 56319) := by omega
      rcases hplainesc with h | h
      · rw [h, List.cons_append, List.nil_append, mergeToks_plain, ihtl]
      · rw [h, List.cons_append, List.nil_append, mergeToks_esc c _ hnothi, ihtl]
    · have ht : charToks c =
          [.esc (55296 + (c - 65536) / 1024), .esc (56320 + (c - 65536) % 1024)] := by
        unfold charToks
        rw [if_neg (by omega), if_neg (by omega), if_neg (by omega),
          if_neg (by omega)]
      have hdiv : (c - 65536) / 1024 < 1024 := by omega
      have hmod : (c - 65536) % 1024 < 1024 := Nat.mod_lt _ (by norm_num)
      rw [ht]
      simp only [List.cons_append, List.nil_append, mergeToks]
      rw [if_pos (by omega)]
      rw [show ([] : List STok).append (strToks tl) = strToks tl from rfl, ihtl]
      have harith : 65536 + (55296 + (c - 65536) / 1024 - 55296) * 1024 +
          (56320 + (c - 65536) % 1024 - 56320) = c := by omega
      rw [harith]

/-- Scanning an escaped string body recovers the original string. -/
theorem parses_escapeStr (s : PyStr) (fuel : Nat) (rest : List Nat)
    (hwf : wfStr s = true) (hfuel : (escapeStr s).length < fuel) :
    parseStrAux fuel (escapeStr s ++ 34 :: rest) = some (s, rest) := by
  unfold parseStrAux
  rw [scanToks_escapeStr s fuel rest hwf hfuel]
  simp [mergeToks_strToks s hwf]

/-! ## Round-trip lemmas: numbers, heads, dicts -/

/-- Safe continuation for the one-value parse lemma: the remainder is
empty or starts with a character that neither extends a digit run nor
turns an integer into a float literal (in every composed position the
remainder starts with a comma, a closing bracket or brace, or is empty). -/
def restSafe : List Nat → Bool
  | [] => true
  | c :: _ =>
      !(decide (48 ≤ c) && decide (c ≤ 57) || decide (c = 46) ||
        decide (c = 101) || decide (c = 69))

theorem restSafe_mk (c : Nat) (t : List Nat)
    (h : ¬(48 ≤ c ∧ c ≤ 57) ∧ c ≠ 46 ∧ c ≠ 101 ∧ c ≠ 69) :
    restSafe (c :: t) = true := by
  simp only [restSafe, Bool.not_eq_eq_eq_not, Bool.not_true,
    Bool.or_eq_false_iff, Bool.and_eq_false_iff, decide_eq_false_iff_not]
  omega

theorem restSafe_elim (c : Nat) (t : List Nat) (h : restSafe (c :: t) = true) :
    ¬(48 ≤ c ∧ c ≤ 57) ∧ c ≠ 46 ∧ c ≠ 101 ∧ c ≠ 69 := by
  simp only [restSafe, Bool.not_eq_eq_eq_not, Bool.not_true,
    Bool.or_eq_false_iff, Bool.and_eq_false_iff, decide_eq_false_iff_not] at h
  omega

theorem parseDigits_stop (rest : List Nat) (acc : Nat)
    (h : restSafe rest = true) : parseDigits rest acc = (acc, rest) := by
  cases rest with
  | nil => rfl
  | cons c t =>
    have hc := restSafe_elim c t h
    rw [parseDigits]
    rw [if_neg (by omega)]

theorem parseNumTail_safe (v : Nat) (rest : List Nat)
    (h : restSafe rest = true) : parseNumTail v rest = some (v, rest) := by
  cases rest with
  | nil => rfl
  | cons c t =>
    have hc := restSafe_elim c t h
    rw [parseNumTail]
    rw [if_neg (by omega)]

theorem natDigitsAux_head : ∀ (fuel n : Nat), n < fuel →
    ∃ c t, natDigitsAux fuel n = c :: t ∧ 48 ≤ c ∧ c ≤ 57 ∧
      (1 ≤ n → 49 ≤ c) := by
  intro fuel
  induction fuel with
  | zero => omega
  | succ f ih =>
    intro n hn
    by_cases h10 : n < 10
    · refine ⟨48 + n, [], ?_, by omega, by omega, by omega⟩
      rw [natDigitsAux, if_pos h10]
    · have hdiv : n / 10 < f := by omega
      obtain ⟨c, t, heq, hc1, hc2, hc3⟩ := ih (n / 10) hdiv
      refine ⟨c, t ++ [48 + n % 10], ?_, hc1, hc2, fun _ => hc3 (by omega)⟩
      rw [natDigitsAux, if_neg h10, heq]
      rfl

theorem parseDigits_chain : ∀ (fuel n acc : Nat) (rest : List Nat), n < fuel →
    parseDigits (natDigitsAux fuel n ++ rest) acc =
      parseDigits rest (acc * 10 ^ (natDigitsAux fuel n).length + n) := by
  intro fuel
  induction fuel with
  | zero => omega
  | succ f ih =>
    intro n acc rest hn
    by_cases h10 : n < 10
    · rw [natDigitsAux, if_pos h10]
      simp only [List.cons_append, List.nil_append, List.length_cons,
        List.length_nil]
      rw [parseDigits, if_pos (by omega)]
      norm_num
    · have hdiv : n / 10 < f := by omega
      rw [natDigitsAux, if_neg h10]
      rw [List.append_assoc, List.cons_append, List.nil_append]
      rw [ih (n / 10) acc ((48 + n % 10) :: rest) hdiv]
      rw [parseDigits, if_pos (by omega)]
      have harith : (acc * 10 ^ (natDigitsAux f (n / 10)).length + n / 10) * 10 +
          (48 + n % 10 - 48) =
          acc * 10 ^ ((natDigitsAux f (n / 10)).length + 1) + n := by
        rw [pow_succ, ← mul_assoc]
        omega
      rw [harith]
      simp [List.length_append]

/-- Reading back a dumped unsigned integer. -/
theorem parseIntBody_natRepr (n : Nat) (rest : List Nat)
    (h : restSafe rest = true) :
    parseIntBody (natRepr n ++ rest) = some (n, rest) := by
  by_cases h0 : n = 0
  · subst h0
    rw [show natRepr 0 = [48] from rfl]
    simp only [List.cons_append, List.nil_append]
    rw [parseIntBody]
    rw [if_pos rfl]
    exact parseNumTail_safe 0 rest h
  · obtain ⟨c, t, heq, hc1, hc2, hc3⟩ :=
      natDigitsAux_head (n + 1) n (by omega)
    have h49 : 49 ≤ c := hc3 (by omega)
    have hchain := parseDigits_chain (n + 1) n 0 rest (by omega)
    rw [natRepr] at *
    rw [heq] at hchain ⊢
    simp only [List.cons_append] at hchain ⊢
    rw [parseDigits, if_pos (by omega)] at hchain
    rw [parseDigits_stop rest _ h] at hchain
    rw [parseIntBody]
    rw [if_neg (by omega), if_pos (by omega)]
    have hn : 0 * 10 + (c - 48) = c - 48 := by omega
    rw [hn] at hchain
    rw [hchain]
    simp only [zero_mul, zero_add]
    exact parseNumTail_safe n rest h

/-- Every dumped value begins with one of the scanner's dispatch
characters; in particular it is nonempty, not whitespace, and not a
closing bracket, brace, comma or colon. -/
theorem dumpsVal_head (m : Json) : ∃ c t, dumpsVal m = c :: t ∧
    (c = 110 ∨ c = 116 ∨ c = 102 ∨ c = 34 ∨ c = 91 ∨ c = 123 ∨ c = 45 ∨
      (48 ≤ c ∧ c ≤ 57)) := by
  cases m with
  | null => exact ⟨110, _, rfl, by omega⟩
  | bool b =>
    cases b
    · exact ⟨102, _, rfl, by omega⟩
    · exact ⟨116, _, rfl, by omega⟩
  | str s => exact ⟨34, _, rfl, by omega⟩
  | arr a => exact ⟨91, _, rfl, by omega⟩
  | obj o => exact ⟨123, _, rfl, by omega⟩
  | num n =>
    cases n with
    | ofNat k =>
      obtain ⟨c, t, heq, hc1, hc2, _⟩ := natDigitsAux_head (k + 1) k (by omega)
      exact ⟨c, t, heq, by omega⟩
    | negSucc k => exact ⟨45, _, rfl, by omega⟩

theorem isWs_dumpsHead (c : Nat)
    (h : c = 110 ∨ c = 116 ∨ c = 102 ∨ c = 34 ∨ c = 91 ∨ c = 123 ∨ c = 45 ∨
      (48 ≤ c ∧ c ≤ 57)) : isWs c = false := by
  simp only [isWs, Bool.or_eq_false_iff, decide_eq_false_iff_not]
  omega

theorem skipWs_nonWs (c : Nat) (t : List Nat) (h : isWs c = false) :
    skipWs (c :: t) = c :: t := by
  rw [skipWs, h]
  rfl

theorem skipWs_space (t : List Nat) : skipWs (32 :: t) = skipWs t := by
  rw [skipWs]
  rfl

/-- Heads of the later-element encodings. -/
theorem dumpsArrRest_head (a : JsonArr) : ∃ c t, dumpsArrRest a = c :: t ∧
    (c = 44 ∨ c = 93) := by
  cases a with
  | nil => exact ⟨93, _, rfl, by omega⟩
  | cons v tl => exact ⟨44, _, rfl, by omega⟩

theorem dumpsObjRest_head (o : JsonObj) : ∃ c t, dumpsObjRest o = c :: t ∧
    (c = 44 ∨ c = 125) := by
  cases o with
  | nil => exact ⟨125, _, rfl, by omega⟩
  | cons k v tl => exact ⟨44, _, rfl, by omega⟩

theorem restSafe_arrRest (a : JsonArr) (rest : List Nat) :
    restSafe (dumpsArrRest a ++ rest) = true := by
  obtain ⟨c, t, heq, hc⟩ := dumpsArrRest_head a
  rw [heq, List.cons_append]
  exact restSafe_mk c _ (by omega)

theorem restSafe_objRest (o : JsonObj) (rest : List Nat) :
    restSafe (dumpsObjRest o ++ rest) = true := by
  obtain ⟨c, t, heq, hc⟩ := dumpsObjRest_head o
  rw [heq, List.cons_append]
  exact restSafe_mk c _ (by omega)

/-! ## Dict building and list conversions -/

/-- Concatenation of two objects (pair lists). -/
def JsonObj.append : JsonObj → JsonObj → JsonObj
  | .nil, o => o
  | .cons k v tl, o => .cons k v (tl.append o)

theorem JsonObj.append_nil : ∀ (o : JsonObj), o.append .nil = o
  | .nil => rfl
  | .cons k v tl => by rw [JsonObj.append, JsonObj.append_nil]

theorem JsonObj.keys_append : ∀ (a b : JsonObj),
    (a.append b).keys = a.keys ++ b.keys
  | .nil, b => rfl
  | .cons k v tl, b => by
    rw [JsonObj.append, JsonObj.keys, JsonObj.keys, JsonObj.keys_append,
      List.cons_append]

theorem JsonObj.append_assoc : ∀ (a b c : JsonObj),
    (a.append b).append c = a.append (b.append c)
  | .nil, b, c => rfl
  | .cons k v tl, b, c => by
    rw [JsonObj.append, JsonObj.append, JsonObj.append, JsonObj.append_assoc]

theorem JsonObj.insert_fresh : ∀ (acc : JsonObj) (k : PyStr) (v : Json),
    k ∉ acc.keys → acc.insert k v = acc.append (.cons k v .nil)
  | .nil, k, v, _ => rfl
  | .cons k0 v0 tl, k, v, h => by
    have hne : k0 ≠ k := by
      intro heq
      exact h (by rw [heq, JsonObj.keys]; exact List.mem_cons_self _ _)
    rw [JsonObj.insert, if_neg hne, JsonObj.append,
      JsonObj.insert_fresh tl k v (fun hmem => h (by
        rw [JsonObj.keys]
        exact List.mem_cons_of_mem _ hmem))]

theorem JsonObj.keys_pairs_eq : ∀ (o : JsonObj),
    o.pairs.map Prod.fst = o.keys
  | .nil => rfl
  | .cons k v tl => by
    rw [JsonObj.pairs, JsonObj.keys, List.map_cons, JsonObj.keys_pairs_eq]

theorem buildDict_go : ∀ (o : JsonObj) (acc : JsonObj),
    o.keys.Nodup → (∀ k, k ∈ o.keys → k ∉ acc.keys) →
    buildDict acc o.pairs = acc.append o
  | .nil, acc, _, _ => by
    rw [JsonObj.pairs, buildDict, JsonObj.append_nil]
  | .cons k v tl, acc, hnd, hdisj => by
    rw [JsonObj.pairs, buildDict]
    have hk : k ∉ acc.keys := hdisj k (by
      rw [JsonObj.keys]; exact List.mem_cons_self _ _)
    rw [JsonObj.insert_fresh acc k v hk]
    have hnd2 : tl.keys.Nodup := by
      rw [JsonObj.keys] at hnd
      exact (List.nodup_cons.mp hnd).2
    have hknot : k ∉ tl.keys := by
      rw [JsonObj.keys] at hnd
      exact (List.nodup_cons.mp hnd).1
    rw [buildDict_go tl (acc.append (.cons k v .nil)) hnd2 (fun k2 hk2 => by
      rw [JsonObj.keys_append, JsonObj.keys, JsonObj.keys]
      intro hmem
      rcases List.mem_append.mp hmem with h1 | h1
      · exact hdisj k2 (by
          rw [JsonObj.keys]
          exact List.mem_cons_of_mem _ hk2) h1
      · rcases List.mem_cons.mp h1 with h2 | h2
        · exact hknot (h2 ▸ hk2)
        · simp at h2)]
    rw [JsonObj.append_assoc]
    rfl

/-- With pairwise-distinct keys, in-order insertion rebuilds the object. -/
theorem buildDict_pairs (o : JsonObj) (h : o.keys.Nodup) :
    buildDict .nil o.pairs = o := by
  rw [buildDict_go o .nil h (fun k _ => by rw [JsonObj.keys]; simp)]
  rfl

theorem JsonArr.ofList_toList : ∀ (a : JsonArr), JsonArr.ofList a.toList = a
  | .nil => rfl
  | .cons v tl => by
    rw [JsonArr.toList, JsonArr.ofList, JsonArr.ofList_toList]

/-! ## The one-value parse lemma -/

/-- Unfolding `parseVal` at a digit-headed input. -/
theorem parseVal_digitHead (f c : Nat) (tl : List Nat) (h48 : 48 ≤ c) (h57 : c ≤ 57) :
    parseVal (f + 1) (c :: tl) = (match parseIntBody (c :: tl) with
      | none => none
      | some (n, r1) => some (.num (n : Int), r1)) := by
  rw [parseVal.eq_def]
  dsimp only
  split
  all_goals first
    | (rename_i heq
       simp only [List.cons.injEq] at heq
       omega)
    | (rename_i heq
       exact absurd heq (List.cons_ne_nil _ _))
    | skip
  rename_i heq
  injection heq with h1 h2
  subst h1
  subst h2
  rw [if_pos ⟨h48, h57⟩]

/-- Unfolding `parseVal` at a minus-headed input. -/
theorem parseVal_negHead (f : Nat) (tl : List Nat) :
    parseVal (f + 1) (45 :: tl) = (match parseIntBody tl with
      | none => none
      | some (n, r1) => some (.num (-(n : Int)), r1)) := by
  rw [parseVal.eq_def]


mutual
/-- Scanning a dumped value at sufficient fuel recovers the value and
leaves exactly the remainder, whenever the remainder cannot extend a
number token. -/
theorem parses_dumpsVal : ∀ (m : Json) (fuel : Nat) (rest : List Nat),
    m.wf = true → restSafe rest = true →
    (dumpsVal m ++ rest).length < fuel →
    parseVal fuel (dumpsVal m ++ rest) = some (m, rest)
  | .null, fuel, rest, _, _, hf => by
    obtain ⟨f, rfl⟩ : ∃ f, fuel = f + 1 := ⟨fuel - 1, by omega⟩
    rw [show dumpsVal .null = [110, 117, 108, 108] from rfl]
    simp only [List.cons_append, List.nil_append]
    rw [parseVal.eq_def]
  | .bool true, fuel, rest, _, _, hf => by
    obtain ⟨f, rfl⟩ : ∃ f, fuel = f + 1 := ⟨fuel - 1, by omega⟩
    rw [show dumpsVal (.bool true) = [116, 114, 117, 101] from rfl]
    simp only [List.cons_append, List.nil_append]
    rw [parseVal.eq_def]
  | .bool false, fuel, rest, _, _, hf => by
    obtain ⟨f, rfl⟩ : ∃ f, fuel = f + 1 := ⟨fuel - 1, by omega⟩
    rw [show dumpsVal (.bool false) = [102, 97, 108, 115, 101] from rfl]
    simp only [List.cons_append, List.nil_append]
    rw [parseVal.eq_def]
  | .num n, fuel, rest, _, hr, hf => by
    obtain ⟨f, rfl⟩ : ∃ f, fuel = f + 1 := ⟨fuel - 1, by omega⟩
    cases n with
    | ofNat k =>
      obtain ⟨c, t, hnr, h48, h57, _⟩ := natDigitsAux_head (k + 1) k (by omega)
      rw [show dumpsVal (.num (Int.ofNat k)) = natRepr k from rfl, natRepr,
        hnr, List.cons_append]
      rw [parseVal_digitHead f c _ h48 h57]
      rw [← List.cons_append, ← hnr,
        show natDigitsAux (k + 1) k = natRepr k from rfl]
      rw [parseIntBody_natRepr k rest hr]
      rfl
    | negSucc kk =>
      rw [show dumpsVal (.num (Int.negSucc kk)) = 45 :: natRepr (kk + 1)
        from rfl, List.cons_append]
      rw [parseVal_negHead f _]
      rw [parseIntBody_natRepr (kk + 1) rest hr]
      dsimp only
      have hval : -((kk + 1 : Nat) : Int) = Int.negSucc kk := by
        rw [Int.negSucc_eq]
        push_cast
        ring
      rw [hval]
  | .str s, fuel, rest, hwf, _, hf => by
    obtain ⟨f, rfl⟩ : ∃ f, fuel = f + 1 := ⟨fuel - 1, by omega⟩
    rw [show dumpsVal (.str s) = 34 :: (escapeStr s ++ [34]) from rfl]
    simp only [List.cons_append, List.append_assoc, List.singleton_append,
      List.nil_append]
    rw [parseVal.eq_def]
    dsimp only
    rw [parses_escapeStr s _ rest (by simpa [Json.wf] using hwf)
      (by simp [List.length_append]; omega)]
  | .arr .nil, fuel, rest, _, _, hf => by
    obtain ⟨f, rfl⟩ : ∃ f, fuel = f + 1 := ⟨fuel - 1, by omega⟩
    rw [show dumpsVal (.arr .nil) = [91, 93] from rfl]
    simp only [List.cons_append, List.nil_append]
    rw [parseVal.eq_def]
    dsimp only
    rw [skipWs_nonWs 93 rest (by decide)]
  | .arr (.cons v tl), fuel, rest, hwf, _, hf => by
    obtain ⟨f, rfl⟩ : ∃ f, fuel = f + 1 := ⟨fuel - 1, by omega⟩
    have hwf2 : Json.wf v = true ∧ JsonArr.wf tl = true := by
      simpa [Json.wf, JsonArr.wf] using hwf
    rw [show dumpsVal (.arr (.cons v tl)) =
      91 :: (dumpsVal v ++ dumpsArrRest tl) from rfl] at hf ⊢
    simp only [List.cons_append, List.append_assoc] at hf ⊢
    have hlen : (dumpsVal v ++ (dumpsArrRest tl ++ rest)).length < f := by
      simp only [List.length_cons, List.length_append] at hf ⊢
      omega
    rw [parseVal.eq_def]
    dsimp only
    obtain ⟨c, t, hdv, hc⟩ := dumpsVal_head v
    rw [hdv, List.cons_append, skipWs_nonWs c _ (isWs_dumpsHead c hc),
      ← List.cons_append, ← hdv]
    split
    · rename_i tl2 heq
      rw [hdv, List.cons_append, List.cons.injEq] at heq
      omega
    rw [parses_dumpsVal v f _ hwf2.1 (restSafe_arrRest tl rest) hlen]
    dsimp only
    rw [parses_dumpsArrRest tl f rest hwf2.2 (by
      simp only [List.length_append] at hlen ⊢
      omega)]
    dsimp only
    rw [JsonArr.ofList, JsonArr.ofList_toList]
  | .obj .nil, fuel, rest, _, _, hf => by
    obtain ⟨f, rfl⟩ : ∃ f, fuel = f + 1 := ⟨fuel - 1, by omega⟩
    rw [show dumpsVal (.obj .nil) = [123, 125] from rfl]
    simp only [List.cons_append, List.nil_append]
    rw [parseVal.eq_def]
    dsimp only
    rw [skipWs_nonWs 125 rest (by decide)]
  | .obj (.cons k v tl), fuel, rest, hwf, _, hf => by
    obtain ⟨f, rfl⟩ : ∃ f, fuel = f + 1 := ⟨fuel - 1, by omega⟩
    have hwf2 : wfStr k = true ∧ Json.wf v = true ∧ JsonObj.wf tl = true ∧
        (JsonObj.keys (.cons k v tl)).Nodup := by
      have := hwf
      simp only [Json.wf, JsonObj.wf, Bool.and_eq_true, decide_eq_true_eq]
        at this
      exact ⟨this.1.1.1, this.1.1.2, this.1.2, this.2⟩
    rw [show dumpsVal (.obj (.cons k v tl)) =
      123 :: 34 :: (escapeStr k ++ 34 :: 58 :: 32 ::
        (dumpsVal v ++ dumpsObjRest tl)) from rfl] at hf ⊢
    simp only [List.cons_append, List.append_assoc] at hf ⊢
    rw [parseVal.eq_def]
    dsimp only
    rw [skipWs_nonWs 34 _ (by decide)]
    dsimp only
    rw [parses_escapeStr k _ _ hwf2.1 (by
      simp only [List.length_cons, List.length_append]
      omega)]
    dsimp only
    rw [skipWs_nonWs 58 _ (by decide)]
    dsimp only
    rw [skipWs_space]
    obtain ⟨c, t, hdv, hc⟩ := dumpsVal_head v
    rw [hdv, List.cons_append, skipWs_nonWs c _ (isWs_dumpsHead c hc),
      ← List.cons_append, ← hdv]
    have hlen : (dumpsVal v ++ (dumpsObjRest tl ++ rest)).length < f := by
      simp only [List.length_cons, List.length_append] at hf ⊢
      omega
    rw [parses_dumpsVal v f _ hwf2.2.1 (restSafe_objRest tl rest) hlen]
    dsimp only
    rw [parses_dumpsObjRest tl f rest hwf2.2.2.1 (by
      simp only [List.length_append] at hlen ⊢
      omega)]
    dsimp only
    rw [show ((k, v) :: JsonObj.pairs tl) = (JsonObj.cons k v tl).pairs
      from rfl]
    rw [buildDict_pairs _ hwf2.2.2.2]

/-- Companion lemma for the later elements of a dumped list. -/
theorem parses_dumpsArrRest : ∀ (a : JsonArr) (fuel : Nat) (rest : List Nat),
    a.wf = true → (dumpsArrRest a ++ rest).length < fuel →
    parseArrRest fuel (dumpsArrRest a ++ rest) = some (a.toList, rest)
  | .nil, fuel, rest, _, hf => by
    obtain ⟨f, rfl⟩ : ∃ f, fuel = f + 1 := ⟨fuel - 1, by omega⟩
    rw [show dumpsArrRest .nil = [93] from rfl]
    simp only [List.cons_append, List.nil_append]
    rw [parseArrRest.eq_def]
    dsimp only
    rw [skipWs_nonWs 93 rest (by decide)]
    rfl
  | .cons v tl, fuel, rest, hwf, hf => by
    obtain ⟨f, rfl⟩ : ∃ f, fuel = f + 1 := ⟨fuel - 1, by omega⟩
    have hwf2 : Json.wf v = true ∧ JsonArr.wf tl = true := by
      simpa [JsonArr.wf] using hwf
    rw [show dumpsArrRest (.cons v tl) =
      44 :: 32 :: (dumpsVal v ++ dumpsArrRest tl) from rfl] at hf ⊢
    simp only [List.cons_append, List.append_assoc] at hf ⊢
    have hlen : (dumpsVal v ++ (dumpsArrRest tl ++ rest)).length < f := by
      simp only [List.length_cons, List.length_append] at hf ⊢
      omega
    rw [parseArrRest.eq_def]
    dsimp only
    rw [skipWs_nonWs 44 _ (by decide)]
    dsimp only
    rw [skipWs_space]
    obtain ⟨c, t, hdv, hc⟩ := dumpsVal_head v
    rw [hdv, List.cons_append, skipWs_nonWs c _ (isWs_dumpsHead c hc),
      ← List.cons_append, ← hdv]
    rw [parses_dumpsVal v f _ hwf2.1 (restSafe_arrRest tl rest) hlen]
    dsimp only
    rw [parses_dumpsArrRest tl f rest hwf2.2 (by
      simp only [List.length_append] at hlen ⊢
      omega)]
    rfl

/-- Companion lemma for the later pairs of a dumped dict. -/
theorem parses_dumpsObjRest : ∀ (o : JsonObj) (fuel : Nat) (rest : List Nat),
    o.wf = true → (dumpsObjRest o ++ rest).length < fuel →
    parseObjRest fuel (dumpsObjRest o ++ rest) = some (o.pairs, rest)
  | .nil, fuel, rest, _, hf => by
    obtain ⟨f, rfl⟩ : ∃ f, fuel = f + 1 := ⟨fuel - 1, by omega⟩
    rw [show dumpsObjRest .nil = [125] from rfl]
    simp only [List.cons_append, List.nil_append]
    rw [parseObjRest.eq_def]
    dsimp only
    rw [skipWs_nonWs 125 rest (by decide)]
    rfl
  | .cons k v tl, fuel, rest, hwf, hf => by
    obtain ⟨f, rfl⟩ : ∃ f, fuel = f + 1 := ⟨fuel - 1, by omega⟩
    have hwf2 : wfStr k = true ∧ Json.wf v = true ∧ JsonObj.wf tl = true := by
      have := hwf
      simp only [JsonObj.wf, Bool.and_eq_true] at this
      exact ⟨this.1.1, this.1.2, this.2⟩
    rw [show dumpsObjRest (.cons k v tl) =
      44 :: 32 :: 34 :: (escapeStr k ++ 34 :: 58 :: 32 ::
        (dumpsVal v ++ dumpsObjRest tl)) from rfl] at hf ⊢
    simp only [List.cons_append, List.append_assoc] at hf ⊢
    rw [parseObjRest.eq_def]
    dsimp only
    rw [skipWs_nonWs 44 _ (by decide)]
    dsimp only
    rw [skipWs_space, skipWs_nonWs 34 _ (by decide)]
    dsimp only
    rw [parses_escapeStr k _ _ hwf2.1 (by
      simp only [List.length_cons, List.length_append]
      omega)]
    dsimp only
    rw [skipWs_nonWs 58 _ (by decide)]
    dsimp only
    rw [skipWs_space]
    obtain ⟨c, t, hdv, hc⟩ := dumpsVal_head v
    rw [hdv, List.cons_append, skipWs_nonWs c _ (isWs_dumpsHead c hc),
      ← List.cons_append, ← hdv]
    have hlen : (dumpsVal v ++ (dumpsObjRest tl ++ rest)).length < f := by
      simp only [List.length_cons, List.length_append] at hf ⊢
      omega
    rw [parses_dumpsVal v f _ hwf2.2.1 (restSafe_objRest tl rest) hlen]
    dsimp only
    rw [parses_dumpsObjRest tl f rest hwf2.2.2 (by
      simp only [List.length_append] at hlen ⊢
      omega)]
    rfl
end


/-! ## Top-level JSON round trip, and the ASCII bridge to bytes -/

theorem hexDigit_lt_128 (d : Nat) (h : d < 16) : hexDigit d < 128 := by
  unfold hexDigit
  split <;> omega

theorem toHex4_ascii (u : Nat) : ∀ b ∈ toHex4 u, b < 128 := by
  intro b hb
  have h3 : u / 4096 % 16 < 16 := Nat.mod_lt _ (by norm_num)
  have h2 : u / 256 % 16 < 16 := Nat.mod_lt _ (by norm_num)
  have h1 : u / 16 % 16 < 16 := Nat.mod_lt _ (by norm_num)
  have h0 : u % 16 < 16 := Nat.mod_lt _ (by norm_num)
  simp only [toHex4, List.mem_cons, List.not_mem_nil, or_false] at hb
  rcases hb with rfl | rfl | rfl | rfl
  · exact hexDigit_lt_128 _ h3
  · exact hexDigit_lt_128 _ h2
  · exact hexDigit_lt_128 _ h1
  · exact hexDigit_lt_128 _ h0

theorem escapeChar_ascii (c : Nat) : ∀ b ∈ escapeChar c, b < 128 := by
  intro b hb
  unfold escapeChar at hb
  repeat' split at hb
  · simp only [List.mem_cons, List.not_mem_nil, or_false] at hb
    rcases hb with rfl | rfl <;> omega
  · simp only [List.mem_cons, List.not_mem_nil, or_false] at hb
    rcases hb with rfl | rfl <;> omega
  · simp only [List.mem_cons, List.not_mem_nil, or_false] at hb
    rcases hb with rfl | rfl <;> omega
  · simp only [List.mem_cons, List.not_mem_nil, or_false] at hb
    rcases hb with rfl | rfl <;> omega
  · simp only [List.mem_cons, List.not_mem_nil, or_false] at hb
    rcases hb with rfl | rfl <;> omega
  · simp only [List.mem_cons, List.not_mem_nil, or_false] at hb
    rcases hb with rfl | rfl <;> omega
  · simp only [List.mem_cons, List.not_mem_nil, or_false] at hb
    rcases hb with rfl | rfl <;> omega
  · simp only [List.mem_cons] at hb
    rcases hb with rfl | rfl | h
    · omega
    · omega
    · exact toHex4_ascii c b h
  · simp only [List.mem_singleton] at hb
    omega
  · simp only [List.mem_cons] at hb
    rcases hb with rfl | rfl | h
    · omega
    · omega
    · exact toHex4_ascii c b h
  · simp only [List.mem_append, List.mem_cons] at hb
    rcases hb with (rfl | rfl | h) | (rfl | rfl | h)
    · omega
    · omega
    · exact toHex4_ascii _ b h
    · omega
    · omega
    · exact toHex4_ascii _ b h

theorem escapeStr_ascii (s : PyStr) : ∀ b ∈ escapeStr s, b < 128 := by
  induction s with
  | nil => simp [escapeStr]
  | cons c tl ih =>
    intro b hb
    simp only [escapeStr, List.mem_append] at hb
    rcases hb with h | h
    · exact escapeChar_ascii c b h
    · exact ih b h

theorem natDigitsAux_ascii (fuel : Nat) : ∀ (n : Nat), ∀ b ∈ natDigitsAux fuel n, b < 128 := by
  induction fuel with
  | zero => simp [natDigitsAux]
  | succ f ih =>
    intro n b hb
    rw [natDigitsAux] at hb
    split at hb
    · simp only [List.mem_singleton] at hb
      omega
    · simp only [List.mem_append, List.mem_singleton] at hb
      rcases hb with h | h
      · exact ih _ b h
      · have : n % 10 < 10 := Nat.mod_lt _ (by norm_num)
        omega

theorem intRepr_ascii (n : Int) : ∀ b ∈ intRepr n, b < 128 := by
  cases n with
  | ofNat k =>
    intro b hb
    exact natDigitsAux_ascii (k + 1) k b hb
  | negSucc k =>
    intro b hb
    simp only [intRepr, List.mem_cons] at hb
    rcases hb with rfl | h
    · omega
    · exact natDigitsAux_ascii (k + 2) (k + 1) b h

mutual
/-- With `ensure_ascii=True` every dumped byte is ASCII. -/
theorem dumpsVal_ascii : ∀ (m : Json), ∀ b ∈ dumpsVal m, b < 128
  | .null, b, hb => by
    simp only [dumpsVal, List.mem_cons, List.not_mem_nil, or_false] at hb
    omega
  | .bool true, b, hb => by
    simp only [dumpsVal, List.mem_cons, List.not_mem_nil, or_false] at hb
    omega
  | .bool false, b, hb => by
    simp only [dumpsVal, List.mem_cons, List.not_mem_nil, or_false] at hb
    omega
  | .num n, b, hb => intRepr_ascii n b hb
  | .str s, b, hb => by
    simp only [dumpsVal, List.mem_cons, List.mem_append, List.mem_singleton,
      List.not_mem_nil, or_false] at hb
    rcases hb with rfl | h | rfl
    · omega
    · exact escapeStr_ascii s b h
    · omega
  | .arr a, b, hb => by
    simp only [dumpsVal, List.mem_cons] at hb
    rcases hb with rfl | h
    · omega
    · exact dumpsArrFirst_ascii a b h
  | .obj o, b, hb => by
    simp only [dumpsVal, List.mem_cons] at hb
    rcases hb with rfl | h
    · omega
    · exact dumpsObjFirst_ascii o b h

theorem dumpsArrFirst_ascii : ∀ (a : JsonArr), ∀ b ∈ dumpsArrFirst a, b < 128
  | .nil, b, hb => by
    simp only [dumpsArrFirst, List.mem_singleton] at hb
    omega
  | .cons v tl, b, hb => by
    simp only [dumpsArrFirst, List.mem_append] at hb
    rcases hb with h | h
    · exact dumpsVal_ascii v b h
    · exact dumpsArrRest_ascii tl b h

theorem dumpsArrRest_ascii : ∀ (a : JsonArr), ∀ b ∈ dumpsArrRest a, b < 128
  | .nil, b, hb => by
    simp only [dumpsArrRest, List.mem_singleton] at hb
    omega
  | .cons v tl, b, hb => by
    simp only [dumpsArrRest, List.mem_cons, List.mem_append] at hb
    rcases hb with rfl | rfl | h | h
    · omega
    · omega
    · exact dumpsVal_ascii v b h
    · exact dumpsArrRest_ascii tl b h

theorem dumpsObjFirst_ascii : ∀ (o : JsonObj), ∀ b ∈ dumpsObjFirst o, b < 128
  | .nil, b, hb => by
    simp only [dumpsObjFirst, List.mem_singleton] at hb
    omega
  | .cons k v tl, b, hb => by
    simp only [dumpsObjFirst, List.mem_cons, List.mem_append] at hb
    rcases hb with rfl | h | rfl | rfl | rfl | h | h
    · omega
    · exact escapeStr_ascii k b h
    · omega
    · omega
    · omega
    · exact dumpsVal_ascii v b h
    · exact dumpsObjRest_ascii tl b h

theorem dumpsObjRest_ascii : ∀ (o : JsonObj), ∀ b ∈ dumpsObjRest o, b < 128
  | .nil, b, hb => by
    simp only [dumpsObjRest, List.mem_singleton] at hb
    omega
  | .cons k v tl, b, hb => by
    simp only [dumpsObjRest, List.mem_cons, List.mem_append] at hb
    rcases hb with rfl | rfl | rfl | h | rfl | rfl | rfl | h | h
    · omega
    · omega
    · omega
    · exact escapeStr_ascii k b h
    · omega
    · omega
    · omega
    · exact dumpsVal_ascii v b h
    · exact dumpsObjRest_ascii tl b h
end

/-- UTF-8 encoding is the identity on ASCII text. -/
theorem utf8Encode_ascii (s : PyStr) (h : ∀ b ∈ s, b < 128) :
    utf8Encode s = s := by
  induction s with
  | nil => rfl
  | cons c tl ih =>
    have hc : c < 128 := h c (List.mem_cons_self _ _)
    rw [utf8Encode, utf8Char, if_pos hc,
      ih (fun b hb => h b (List.mem_cons_of_mem _ hb))]
    rfl

theorem utf8DecodeAux_ascii : ∀ (fuel : Nat) (l : List Nat),
    l.length ≤ fuel → (∀ b ∈ l, b < 128) → utf8DecodeAux fuel l = some l := by
  intro fuel
  induction fuel with
  | zero =>
    intro l hl _
    match l, hl with
    | [], _ => rfl
  | succ f ih =>
    intro l hl hb
    match l with
    | [] => rfl
    | b :: tl =>
      have h1 : b < 128 := hb b (List.mem_cons_self _ _)
      rw [utf8DecodeAux.eq_def]
      dsimp only
      rw [if_pos h1,
        ih tl (by simp only [List.length_cons] at hl; omega)
          (fun x hx => hb x (List.mem_cons_of_mem _ hx))]
      rfl

/-- UTF-8 decoding is the identity on ASCII bytes. -/
theorem utf8Decode_ascii (l : List Nat) (h : ∀ b ∈ l, b < 128) :
    utf8Decode l = some l :=
  utf8DecodeAux_ascii l.length l le_rfl h

/-- Scanning a whole dumped value consumes it exactly. -/
theorem loads_dumpsVal (m : Json) (hwf : m.wf = true) :
    loads (dumpsVal m) = some m := by
  have hP := parses_dumpsVal m ((dumpsVal m).length + 1) [] hwf rfl
    (by simp)
  rw [List.append_nil] at hP
  unfold loads
  obtain ⟨c, t, hdv, hc⟩ := dumpsVal_head m
  rw [hdv, skipWs_nonWs c _ (isWs_dumpsHead c hc), ← hdv, hP]
  rfl

/-- Full stdlib pipeline on bytes: `json.loads((json.dumps m).encode())`. -/
theorem loadsBytes_dumps (m : Json) (hwf : m.wf = true) :
    loadsBytes (utf8Encode (dumpsVal m)) = some m := by
  unfold loadsBytes
  rw [utf8Encode_ascii (dumpsVal m) (dumpsVal_ascii m),
    utf8Decode_ascii (dumpsVal m) (dumpsVal_ascii m)]
  exact loads_dumpsVal m hwf


/-! ## Frame codec over byte streams

A socket's incoming data is modelled as the list of bytes it will deliver
before the end event: `RxEnd` says what `recv` does once the listed bytes
are exhausted (clean close → `b""`, timeout → `socket.timeout`, failure →
`OSError`).  Receive functions return their outcome together with the
unconsumed part of the stream, which makes "how much was read" visible. -/

/-- Behavior of `recv` once the stream's bytes are exhausted. -/
inductive RxEnd where
  | closed : RxEnd
  | timedOut : RxEnd
  | osError : RxEnd
  deriving DecidableEq

/-- Low-level failure of the client's `_recv_exact` loop. -/
inductive LowErr where
  | connClosed : Nat → Nat → LowErr
  | timeout : LowErr
  | os : LowErr
  deriving DecidableEq

/-- Model of `GimpBridge._recv_exact(n)` (bridge.py): loop over `recv`
until `n` bytes are collected; a close mid-way raises
`GimpConnectionError(f"... (got {len(data)} of {n} bytes)")`; a timeout
or socket failure raises out of `recv` itself. -/
def recvExactC (n : Nat) (s : List Nat) (e : RxEnd) :
    Except LowErr (List Nat) × List Nat :=
  if n ≤ s.length then (.ok (s.take n), s.drop n)
  else
    match e with
    | .closed => (.error (.connClosed s.length n), [])
    | .timedOut => (.error .timeout, [])
    | .osError => (.error .os, [])

/-- Errors of the client's length-prefixed receive, by raise site. -/
inductive CRecvErr where
  | connClosed : Nat → Nat → CRecvErr
  | oversize : Nat → CRecvErr
  | sockTimeout : CRecvErr
  | sockOs : CRecvErr
  | badPayload : CRecvErr
  deriving DecidableEq

/-- Model of `GimpBridge._receive_length_prefixed` (bridge.py): read the
4-byte header, reject a declared length above `MAX_MESSAGE_SIZE` before
touching the body, read exactly that many body bytes, then
`json.loads(data.decode("utf-8"))`. -/
def clientReceiveLP (s : List Nat) (e : RxEnd) :
    Except CRecvErr Json × List Nat :=
  match recvExactC HEADER_SIZE s e with
  | (.error (.connClosed g n), r) => (.error (.connClosed g n), r)
  | (.error .timeout, r) => (.error .sockTimeout, r)
  | (.error .os, r) => (.error .sockOs, r)
  | (.ok header, r1) =>
    let length := be32val header
    if length > MAX_MESSAGE_SIZE then (.error (.oversize length), r1)
    else
      match recvExactC length r1 e with
      | (.error (.connClosed g n), r2) => (.error (.connClosed g n), r2)
      | (.error .timeout, r2) => (.error .sockTimeout, r2)
      | (.error .os, r2) => (.error .sockOs, r2)
      | (.ok data, r2) =>
        match loadsBytes data with
        | some j => (.ok j, r2)
        | none => (.error .badPayload, r2)

/-- Serialized body of a payload: `json.dumps(payload).encode("utf-8")`. -/
def dumpsBytes (m : Json) : List Nat := utf8Encode (dumpsVal m)

/-- Model of `struct.pack(">I", len(data)) + data`: `struct.error` (none)
when the length does not fit an unsigned 32-bit integer. -/
def packFrame (data : List Nat) : Option (List Nat) :=
  if data.length < 2 ^ 32 then some (be32 data.length ++ data) else none

/-- Model of the length-prefixed branch of `GimpBridge._send` (and of the
identical `MCPProPlugin._send_message`): frame the dumped payload. -/
def sendFrame (payload : Json) : Option (List Nat) :=
  packFrame (dumpsBytes payload)

/-- Model of `MCPProPlugin._recv_exact` (gimp_mcp_plugin.py): same loop,
but a close mid-way returns `None` — losing how many bytes had arrived —
while a socket failure still raises `OSError`. -/
inductive SLow where
  | eofNone : SLow
  | osRaise : SLow
  deriving DecidableEq

def recvExactS (n : Nat) (s : List Nat) (e : RxEnd) :
    Except SLow (List Nat) × List Nat :=
  if n ≤ s.length then (.ok (s.take n), s.drop n)
  else
    match e with
    | .closed => (.error .eofNone, [])
    | .timedOut => (.error .osRaise, [])
    | .osError => (.error .osRaise, [])

/-- Outcome of the server's `_receive_message`. -/
inductive SRecvOut where
  | eof : SRecvOut
  | verr : Nat → SRecvOut
  | jsonErr : SRecvOut
  | ok : Json → SRecvOut
  | osErr : SRecvOut
  deriving DecidableEq

/-- Model of `MCPProPlugin._receive_message` (length-prefixed mode): a
`None` from `_recv_exact` — whether on the header or the body, clean or
mid-frame — becomes `None` (`eof`); a declared length above the maximum
raises `ValueError(f"Message too large: {length}")` before reading the
body; then `json.loads(data.decode("utf-8"))`. -/
def serverReceiveMessage (s : List Nat) (e : RxEnd) : SRecvOut × List Nat :=
  match recvExactS HEADER_SIZE s e with
  | (.error .eofNone, r) => (.eof, r)
  | (.error .osRaise, r) => (.osErr, r)
  | (.ok header, r1) =>
    let length := be32val header
    if length > MAX_MESSAGE_SIZE then (.verr length, r1)
    else
      match recvExactS length r1 e with
      | (.error .eofNone, r2) => (.eof, r2)
      | (.error .osRaise, r2) => (.osErr, r2)
      | (.ok data, r2) =>
        match loadsBytes data with
        | some j => (.ok j, r2)
        | none => (.jsonErr, r2)


/-! ## Client connection manager (`GimpBridge`) -/

/-- Client-side connection state: `_connected` flag, whether `_sock` is
set, and the `_command_id` counter (bridge.py `__init__`). -/
structure BridgeSt where
  connected : Bool
  hasSock : Bool
  commandId : Nat
  deriving DecidableEq

/-- A freshly constructed `GimpBridge`. -/
def freshBridge : BridgeSt := ⟨false, false, 0⟩

/-- Model of `GimpBridge.disconnect`: close and clear the socket, reset
the flag; the id counter is untouched. -/
def disconnectSt (st : BridgeSt) : BridgeSt := ⟨false, false, st.commandId⟩

/-- Configuration held by the bridge (host, port, default timeout). -/
structure BridgeCfg where
  host : PyStr
  port : Nat
  timeout : ℚ
  deriving DecidableEq

/-- Result of `connect()`. -/
inductive ConnOutcome where
  | alreadyConnected : ConnOutcome
  | ok : ConnOutcome
  | failed : PyStr → Nat → Nat → ConnOutcome
  deriving DecidableEq

structure ConnResult where
  outcome : ConnOutcome
  state : BridgeSt
  sleeps : List ℚ
  attempts : Nat
  deriving DecidableEq

/-- The retry loop of `connect()`: one `_do_connect` attempt per delay —
returning on the first success, sleeping the delay after each failure —
and, after the list is exhausted, one final attempt.  `att i` tells
whether the i-th `_do_connect` (0-based) succeeds.  Returns success,
the slept delays, and the number of attempts made. -/
def connectLoop : List ℚ → (Nat → Bool) → Nat → Bool × List ℚ × Nat
  | [], att, i => (att i, [], i + 1)
  | d :: ds, att, i =>
    if att i then (true, [], i + 1)
    else
      let r := connectLoop ds att (i + 1)
      (r.1, d :: r.2.1, r.2.2)

/-- Model of `GimpBridge.connect`: no-op when already connected;
otherwise run the retry loop over `RECONNECT_DELAYS`; on total failure
raise a `GimpConnectionError` naming `host:port` and
`len(RECONNECT_DELAYS) + 1` attempts.  A successful `_do_connect` sets
the socket and flag; the id counter is preserved. -/
def connect (cfg : BridgeCfg) (st : BridgeSt) (att : Nat → Bool) : ConnResult :=
  if st.connected ∧ st.hasSock then ⟨.alreadyConnected, st, [], 0⟩
  else
    let r := connectLoop RECONNECT_DELAYS att 0
    if r.1 then ⟨.ok, ⟨true, true, st.commandId⟩, r.2.1, r.2.2⟩
    else
      ⟨.failed cfg.host cfg.port (RECONNECT_DELAYS.length + 1),
        disconnectSt st, r.2.1, r.2.2⟩

/-- Python truthiness of the `timeout` argument:
`effective_timeout = timeout or self.timeout` — `None` and `0` both fall
back to the configured default. -/
def effTimeout (t : Option ℚ) (dflt : ℚ) : ℚ :=
  match t with
  | none => dflt
  | some x => if x = 0 then dflt else x

/-- What `sendall` does on this call. -/
inductive SendRes where
  | ok : SendRes
  | timedOut : SendRes
  | osError : SendRes
  deriving DecidableEq

/-- The transport's behavior during one `send_command` call: whether a
needed reconnect succeeds, what `sendall` does, and the response byte
stream with its end event. -/
structure CallIO where
  connectOk : Bool
  sendRes : SendRes
  rx : List Nat
  rxEnd : RxEnd
  deriving DecidableEq

/-- What a `send_command` call does, by exception identity and raise
site (bridge.py lines 140-184). -/
inductive SCOutcome where
  | ok : Json → SCOutcome
  | cmdError : Json → PyStr → Option Json → SCOutcome
  | timeoutErr : ℚ → SCOutcome
  | connLost : SCOutcome
  | connectFailed : SCOutcome
  | connClosedRaw : Nat → Nat → SCOutcome
  | oversizeRaw : Nat → SCOutcome
  | decodeErr : SCOutcome
  | packError : SCOutcome
  deriving DecidableEq

def SCOutcome.isOk : SCOutcome → Bool
  | .ok _ => true
  | _ => false

structure SCResult where
  outcome : SCOutcome
  state : BridgeSt
  timeoutsSet : List ℚ
  sentId : Option Nat
  deriving DecidableEq

/-- Value of the first binding with a default (`dict.get(k, d)`). -/
def JsonObj.getD (o : JsonObj) (k : PyStr) (d : Json) : Json :=
  (o.get k).getD d

/-- The request payload built by `send_command`. -/
def requestPayload (cmdId : Nat) (commandType : PyStr) (params : Json) : Json :=
  .obj (.cons (pyOf "id") (.num cmdId)
    (.cons (pyOf "type") (.str commandType)
      (.cons (pyOf "params") params .nil)))

/-- Model of `GimpBridge.send_command` (length-prefixed mode), one call:

* `effective_timeout = timeout or self.timeout`;
* `ensure_connected` — a failed reconnect raises the connect error with
  the bridge left disconnected, uncaught by this method;
* `settimeout(effective_timeout)` on the (possibly fresh) socket;
* `_next_id`, build the payload;
* `_send` then `_receive`, with `socket.timeout` → `disconnect()` +
  `GimpTimeoutError(..., timeout_seconds=effective_timeout)` and
  `ConnectionError/OSError/BrokenPipeError` → `disconnect()` +
  `GimpConnectionError`; the `GimpConnectionError`s raised *inside*
  `_receive_length_prefixed` (close mid-read, oversize declared length)
  and the `ValueError`s from an undecodable body are none of these
  classes, so they propagate with the connection state untouched;
* a well-formed dict response with `status == "error"` raises
  `GimpCommandError(message=resp.get("error", ...), command,
  traceback=resp.get("traceback"))`, also with the state untouched;
* otherwise the response is returned.

`timeoutsSet` records the `settimeout` calls applied to `self._sock`
(a reconnect's `_do_connect` applies the default timeout first). -/
def sendCommand (cfg : BridgeCfg) (st : BridgeSt) (commandType : PyStr)
    (params : Json) (tmo : Option ℚ) (io : CallIO) : SCResult :=
  let eff := effTimeout tmo cfg.timeout
  if ¬(st.connected = true ∧ st.hasSock = true) ∧ io.connectOk = false
  then ⟨.connectFailed, disconnectSt st, [], none⟩
  else
    let reconnected : Bool := !(st.connected && st.hasSock)
    let ts : List ℚ := (if reconnected then [cfg.timeout] else []) ++ [eff]
    let cmdId := st.commandId + 1
    let st2 : BridgeSt := ⟨true, true, cmdId⟩
    let payload := requestPayload cmdId commandType params
    if (dumpsBytes payload).length ≥ 2 ^ 32 then
      ⟨.packError, st2, ts, some cmdId⟩
    else
      match io.sendRes with
      | .timedOut => ⟨.timeoutErr eff, disconnectSt st2, ts, some cmdId⟩
      | .osError => ⟨.connLost, disconnectSt st2, ts, some cmdId⟩
      | .ok =>
        match clientReceiveLP io.rx io.rxEnd with
        | (.error (.connClosed g n), _) =>
            ⟨.connClosedRaw g n, st2, ts, some cmdId⟩
        | (.error (.oversize len1), _) =>
            ⟨.oversizeRaw len1, st2, ts, some cmdId⟩
        | (.error .sockTimeout, _) =>
            ⟨.timeoutErr eff, disconnectSt st2, ts, some cmdId⟩
        | (.error .sockOs, _) => ⟨.connLost, disconnectSt st2, ts, some cmdId⟩
        | (.error .badPayload, _) => ⟨.decodeErr, st2, ts, some cmdId⟩
        | (.ok resp, _) =>
          match resp with
          | .obj o =>
            if o.get (pyOf "status") = some (.str (pyOf "error")) then
              ⟨.cmdError (o.getD (pyOf "error")
                  (.str (pyOf "Unknown GIMP error"))) commandType
                (o.get (pyOf "traceback")), st2, ts, some cmdId⟩
            else ⟨.ok resp, st2, ts, some cmdId⟩
          | other => ⟨.ok other, st2, ts, some cmdId⟩

/-- Sequential `send_command` calls threading the bridge state. -/
def runCalls (cfg : BridgeCfg) :
    BridgeSt → List (PyStr × Json × Option ℚ × CallIO) → List SCResult
  | _, [] => []
  | st, (ct, p, tmo, io) :: tl =>
    let r := sendCommand cfg st ct p tmo io
    r :: runCalls cfg r.state tl


/-! ## Server dispatch and connection-handler loop (`MCPProPlugin`) -/

/-- Abstract behavior of a registered native handler on given params:
it returns a response object or raises (message, traceback).  Handler
bodies (GIMP operations) are external collaborators. -/
inductive HandlerRes where
  | ok : Json → HandlerRes
  | exn : PyStr → PyStr → HandlerRes
  deriving DecidableEq

/-- The keys of the `handlers` dict literal in `_dispatch`. -/
def handlerNames : List PyStr :=
  [pyOf "get_image_bitmap", pyOf "get_image_metadata", pyOf "get_gimp_info",
   pyOf "get_context_state", pyOf "exec"]

/-- An error response without a traceback. -/
def errorResp (msg : PyStr) : Json :=
  .obj (.cons (pyOf "status") (.str (pyOf "error"))
    (.cons (pyOf "error") (.str msg) .nil))

/-- An error response carrying a traceback string. -/
def errorRespTb (msg tb : PyStr) : Json :=
  .obj (.cons (pyOf "status") (.str (pyOf "error"))
    (.cons (pyOf "error") (.str msg)
      (.cons (pyOf "traceback") (.str tb) .nil)))

mutual
/-- Python `str()` of a decoded-JSON value, as interpolated by the
f-string `f"Unknown command type: {cmd_type}"`: strings verbatim,
scalars by their reprs, containers by their reprs (modelled without
repr-level quote escaping inside strings, which no claim exercises). -/
def pyFormat : Json → PyStr
  | .str s => s
  | .null => pyOf "None"
  | .bool true => pyOf "True"
  | .bool false => pyOf "False"
  | .num n => intRepr n
  | .arr a => 91 :: pyFormatArr a
  | .obj o => 123 :: pyFormatObj o

def pyFormatArr : JsonArr → PyStr
  | .nil => [93]
  | .cons v tl => pyFormatInner v ++ pyFormatArrRest tl

def pyFormatArrRest : JsonArr → PyStr
  | .nil => [93]
  | .cons v tl => 44 :: 32 :: (pyFormatInner v ++ pyFormatArrRest tl)

def pyFormatObj : JsonObj → PyStr
  | .nil => [125]
  | .cons k v tl =>
    39 :: k ++ 39 :: 58 :: 32 :: (pyFormatInner v ++ pyFormatObjRest tl)

def pyFormatObjRest : JsonObj → PyStr
  | .nil => [125]
  | .cons k v tl =>
    44 :: 32 :: 39 :: k ++ 39 :: 58 :: 32 ::
      (pyFormatInner v ++ pyFormatObjRest tl)

/-- Contained values are shown by `repr`, which quotes strings. -/
def pyFormatInner : Json → PyStr
  | .str s => 39 :: s ++ [39]
  | .null => pyOf "None"
  | .bool true => pyOf "True"
  | .bool false => pyOf "False"
  | .num n => intRepr n
  | .arr a => 91 :: pyFormatArr a
  | .obj o => 123 :: pyFormatObj o
end

/-- Exceptions that escape `_dispatch` itself: `AttributeError` when the
request is not a dict (`request.get` fails), and `TypeError` when the
`"type"` value is an unhashable list or dict (`handlers.get(cmd_type)`
hashes its key).  Both are only converted to error responses by the
generic `except Exception` in `_handle_client`. -/
inductive DispatchExn where
  | attrError : DispatchExn
  | typeError : DispatchExn
  deriving DecidableEq

/-- The `try/except` around the handler call inside `_dispatch`: a
handler exception is converted to an error response carrying its
message and traceback. -/
def runHandler : HandlerRes → Json
  | .ok r => r
  | .exn m tb => errorRespTb m tb

/-- Model of `MCPProPlugin._dispatch`: look up `request.get("type", "")`
in the handler table; an unregistered hashable type yields the error
response naming the unknown type (f-string rendering of the value); a
registered handler is invoked on `request.get("params", {})` through
`runHandler`.  A list- or dict-valued type makes `handlers.get` raise
`TypeError` (unhashable key), and a non-dict request raises
`AttributeError` on `.get` — both escape `_dispatch`. -/
def dispatch (H : PyStr → Json → HandlerRes) (request : Json) :
    Except DispatchExn Json :=
  match request with
  | .obj o =>
    let cmdType := (o.get (pyOf "type")).getD (.str (pyOf ""))
    let params := (o.get (pyOf "params")).getD (.obj .nil)
    match cmdType with
    | .str s =>
      if s ∈ handlerNames then .ok (runHandler (H s params))
      else .ok (errorResp (pyOf "Unknown command type: " ++ s))
    | .arr _ => .error .typeError
    | .obj _ => .error .typeError
    | other => .ok (errorResp (pyOf "Unknown command type: " ++ pyFormat other))
  | _ => .error .attrError

/-- Why the per-connection loop ended. -/
inductive CloseReason where
  | eofClean : CloseReason
  | transport : CloseReason
  deriving DecidableEq

/-- Exception texts produced by the Python runtime, abstracted: the
`json.JSONDecodeError` message, the `AttributeError` message of a
non-dict request, the `TypeError` message of an unhashable type value,
and `traceback.format_exc()`. -/
structure ExcTexts where
  jsonMsg : PyStr
  attrMsg : PyStr
  typeMsg : PyStr
  tb : PyStr
  deriving DecidableEq

/-- Model of the body of `MCPProPlugin._handle_client` (length-prefixed
mode, `self.running` held true): per iteration, decode one message from
the stream; `None` ends the session cleanly; an `OSError`-family failure
ends it as a transport loss; a decode error (`ValueError` on an oversize
length, `json.JSONDecodeError` on a bad body) or a dispatch-level
`AttributeError`/`TypeError` is caught by the generic `except Exception` and
answered with an error response, after which the loop continues on the
same connection; otherwise the request is dispatched and the response
written.  `W k` says whether the k-th write succeeds; a failed write
ends the session as a transport loss.  Fuel above the stream length is
always sufficient (each iteration consumes at least the 4 header
bytes). -/
def serverLoop (H : PyStr → Json → HandlerRes) (W : Nat → Bool)
    (em : ExcTexts) : Nat → Nat → List Nat → RxEnd → List Json × CloseReason
  | 0, _, _, _ => ([], .eofClean)
  | fuel + 1, k, s, e =>
    match serverReceiveMessage s e with
    | (.eof, _) => ([], .eofClean)
    | (.osErr, _) => ([], .transport)
    | (.verr len1, rest) =>
      let er := errorRespTb (pyOf "Message too large: " ++ natRepr len1) em.tb
      if W k then
        let r := serverLoop H W em fuel (k + 1) rest e
        (er :: r.1, r.2)
      else ([], .transport)
    | (.jsonErr, rest) =>
      let er := errorRespTb em.jsonMsg em.tb
      if W k then
        let r := serverLoop H W em fuel (k + 1) rest e
        (er :: r.1, r.2)
      else ([], .transport)
    | (.ok req, rest) =>
      match dispatch H req with
      | .ok resp =>
        if W k then
          let r := serverLoop H W em fuel (k + 1) rest e
          (resp :: r.1, r.2)
        else ([], .transport)
      | .error exn =>
        let er := errorRespTb
          (match exn with
           | .attrError => em.attrMsg
           | .typeError => em.typeMsg) em.tb
        if W k then
          let r := serverLoop H W em fuel (k + 1) rest e
          (er :: r.1, r.2)
        else ([], .transport)

/-- Decidable equality for `Except`, needed to evaluate codec results. -/
instance exceptDecEq {e1 a1 : Type} [DecidableEq e1] [DecidableEq a1] :
    DecidableEq (Except e1 a1) := fun x y =>
  match x, y with
  | .error u, .error v =>
    if h : u = v then .isTrue (by rw [h])
    else .isFalse (fun hc => by injection hc; contradiction)
  | .ok u, .ok v =>
    if h : u = v then .isTrue (by rw [h])
    else .isFalse (fun hc => by injection hc; contradiction)
  | .error _, .ok _ => .isFalse (fun hc => Except.noConfusion hc)
  | .ok _, .error _ => .isFalse (fun hc => Except.noConfusion hc)

theorem recvExactC_enough (n : Nat) (s : List Nat) (e : RxEnd)
    (h : n ≤ s.length) : recvExactC n s e = (.ok (s.take n), s.drop n) := by
  rw [recvExactC.eq_def, if_pos h]

theorem recvExactS_enough (n : Nat) (s : List Nat) (e : RxEnd)
    (h : n ≤ s.length) : recvExactS n s e = (.ok (s.take n), s.drop n) := by
  rw [recvExactS.eq_def, if_pos h]

/-- C2: for every incoming frame whose 4-byte header declares a body
length above `MAX_MESSAGE_SIZE` (104,857,600), both the client decoder
(`_receive_length_prefixed`) and the server decoder (`_receive_message`)
fail with their size-violation error right after the 4-byte header:
exactly `HEADER_SIZE` bytes of the stream are consumed and none of the
declared body is read. -/
theorem C2_oversize (s : List Nat) (e : RxEnd) (h4 : HEADER_SIZE ≤ s.length)
    (hover : MAX_MESSAGE_SIZE < be32val (s.take HEADER_SIZE)) :
    clientReceiveLP s e =
      (.error (.oversize (be32val (s.take HEADER_SIZE))), s.drop HEADER_SIZE) ∧
    serverReceiveMessage s e =
      (.verr (be32val (s.take HEADER_SIZE)), s.drop HEADER_SIZE) := by
  constructor
  · rw [clientReceiveLP, recvExactC_enough _ s e h4]
    dsimp only
    rw [if_pos hover]
  · rw [serverReceiveMessage, recvExactS_enough _ s e h4]
    dsimp only
    rw [if_pos hover]


/-- Receiving one well-formed frame of an acceptable size. -/
theorem clientReceiveLP_frame (m : Json) (e : RxEnd) (hwf : m.wf = true)
    (hsize : (dumpsBytes m).length ≤ MAX_MESSAGE_SIZE) :
    clientReceiveLP (be32 (dumpsBytes m).length ++ dumpsBytes m) e =
      (.ok m, []) := by
  have hM : MAX_MESSAGE_SIZE = 104857600 := rfl
  have hH : HEADER_SIZE = 4 := rfl
  have h4 : HEADER_SIZE ≤ (be32 (dumpsBytes m).length ++ dumpsBytes m).length := by
    simp only [List.length_append, be32_length]
    omega
  rw [clientReceiveLP, recvExactC_enough _ _ e h4]
  dsimp only
  rw [hH, List.take_left' (be32_length _), List.drop_left' (be32_length _)]
  rw [be32val_be32 _ (by omega)]
  rw [if_neg (by omega)]
  rw [recvExactC_enough _ _ e le_rfl]
  dsimp only
  rw [List.take_length, List.drop_length]
  rw [show loadsBytes (dumpsBytes m) = some m from loadsBytes_dumps m hwf]

/-- C1 (amended): for every well-formed payload whose UTF-8 JSON body is
at most `MAX_MESSAGE_SIZE` bytes, framing it as the client `_send` does
(4-byte big-endian length prefix + body) and decoding the resulting byte
stream with `_receive_length_prefixed` yields the payload back and
consumes the frame exactly.  (The size bound is necessary: see the
counterexample `C1_counterexample`.) -/
theorem C1_amended (m : Json) (e : RxEnd) (hwf : m.wf = true)
    (hsize : (dumpsBytes m).length ≤ MAX_MESSAGE_SIZE) :
    sendFrame m = some (be32 (dumpsBytes m).length ++ dumpsBytes m) ∧
    clientReceiveLP (be32 (dumpsBytes m).length ++ dumpsBytes m) e =
      (.ok m, []) := by
  refine ⟨?_, clientReceiveLP_frame m e hwf hsize⟩
  rw [sendFrame, packFrame, if_pos (by
    have hM : MAX_MESSAGE_SIZE = 104857600 := rfl
    omega)]

def m0 : Json :=
  .obj (.cons (pyOf "id") (.num 1)
    (.cons (pyOf "type") (.str (pyOf "get_image_metadata"))
      (.cons (pyOf "params") (.obj .nil) .nil)))

/-- Witness for C1 at a concrete request payload. -/
theorem C1_witness :
    sendFrame m0 = some (be32 (dumpsBytes m0).length ++ dumpsBytes m0) ∧
    clientReceiveLP (be32 (dumpsBytes m0).length ++ dumpsBytes m0) .closed =
      (.ok m0, []) :=
  C1_amended m0 .closed (by decide) (by decide)

def oversizedPayload : Json := .str (List.replicate 104857599 97)

theorem escapeStr_replicate97 : ∀ (k : Nat),
    escapeStr (List.replicate k 97) = List.replicate k 97
  | 0 => rfl
  | k + 1 => by
    rw [List.replicate_succ, escapeStr, escapeStr_replicate97 k]
    rfl

theorem dumpsVal_str_eq (s : PyStr) :
    dumpsVal (.str s) = 34 :: (escapeStr s ++ [34]) := rfl

theorem dumpsBytes_oversized :
    (dumpsBytes oversizedPayload).length = 104857601 := by
  rw [dumpsBytes, utf8Encode_ascii _ (dumpsVal_ascii _)]
  rw [show oversizedPayload = .str (List.replicate 104857599 97) from rfl]
  rw [dumpsVal_str_eq, escapeStr_replicate97]
  rw [List.length_cons, List.length_append, List.length_replicate]
  rfl

/-- C1 counterexample: the claim "decode(encode(m)) == m for every
JSON-serializable m" fails at the concrete payload `oversizedPayload`
(a string of 104,857,599 "a"s): `_send` frames it without complaint —
no length limit is enforced on encode — but its 104,857,601-byte body
exceeds `MAX_MESSAGE_SIZE`, so the decoder raises the size-violation
error instead of returning the payload. -/
theorem C1_counterexample :
    sendFrame oversizedPayload =
      some (be32 104857601 ++ dumpsBytes oversizedPayload) ∧
    (clientReceiveLP (be32 104857601 ++ dumpsBytes oversizedPayload)
        .closed).1 = .error (.oversize 104857601) ∧
    (clientReceiveLP (be32 104857601 ++ dumpsBytes oversizedPayload)
        .closed).1 ≠ .ok oversizedPayload := by
  have hlen := dumpsBytes_oversized
  have hH : HEADER_SIZE = 4 := rfl
  have h4 : HEADER_SIZE ≤ (be32 104857601 ++ dumpsBytes oversizedPayload).length := by
    rw [List.length_append, be32_length, hlen, hH]
    omega
  have hdec : clientReceiveLP (be32 104857601 ++ dumpsBytes oversizedPayload)
      .closed = (.error (.oversize 104857601), dumpsBytes oversizedPayload) := by
    rw [clientReceiveLP, recvExactC_enough _ _ _ h4]
    dsimp only
    rw [hH, List.take_left' (be32_length _), List.drop_left' (be32_length _)]
    rw [be32val_be32 _ (by norm_num)]
    rw [if_pos (by norm_num [MAX_MESSAGE_SIZE])]
  refine ⟨?_, by rw [hdec], ?_⟩
  · rw [sendFrame, packFrame, if_pos (by omega), hlen]
  · rw [hdec]
    exact fun h => Except.noConfusion h

/-- C3 (amended): when the byte source closes before a read completes,
the two sides report it differently, and neither matches the claim in
full.  The server's `_recv_exact` returns `None` whether zero, some
header, or some body bytes had arrived — a clean close and a corrupt
partial frame are conflated into the same end-of-stream signal.  The
client's `_recv_exact` raises a `GimpConnectionError` — an error, not a
normal closed-connection condition — whose got/expected counts are the
only thing distinguishing a zero-byte close from a partial header or
partial body. -/
theorem C3_amended (s : List Nat) :
    (s.length < HEADER_SIZE →
      clientReceiveLP s .closed =
        (.error (.connClosed s.length HEADER_SIZE), []) ∧
      serverReceiveMessage s .closed = (.eof, [])) ∧
    (HEADER_SIZE ≤ s.length →
      be32val (s.take HEADER_SIZE) ≤ MAX_MESSAGE_SIZE →
      s.length - HEADER_SIZE < be32val (s.take HEADER_SIZE) →
      clientReceiveLP s .closed =
        (.error (.connClosed (s.length - HEADER_SIZE)
          (be32val (s.take HEADER_SIZE))), []) ∧
      serverReceiveMessage s .closed = (.eof, [])) := by
  constructor
  · intro h
    constructor
    · rw [clientReceiveLP, recvExactC.eq_def, if_neg (by omega)]
    · rw [serverReceiveMessage, recvExactS.eq_def, if_neg (by omega)]
  · intro h4 hmax hshort
    constructor
    · rw [clientReceiveLP, recvExactC_enough _ s _ h4]
      dsimp only
      rw [if_neg (by omega)]
      rw [recvExactC.eq_def, if_neg (by rw [List.length_drop]; omega)]
      dsimp only
      rw [List.length_drop]
    · rw [serverReceiveMessage, recvExactS_enough _ s _ h4]
      dsimp only
      rw [if_neg (by omega)]
      rw [recvExactS.eq_def, if_neg (by rw [List.length_drop]; omega)]

/-- C3 counterexample: the claim fails on both sides at concrete
inputs — the client reports a close before the 4 header bytes as an
error (`GimpConnectionError`, modelled `.connClosed 0 4`) rather than a
normal end-of-stream condition, and the server reports a close after a
2-byte partial header identically to a clean zero-byte close (`None`
both times), so the two are not reported distinctly. -/
theorem C3_counterexample :
    (clientReceiveLP [] .closed).1 = .error (.connClosed 0 4) ∧
    serverReceiveMessage [0, 1] .closed = serverReceiveMessage [] .closed ∧
    serverReceiveMessage [] .closed = (.eof, []) := by decide


/-- Witness for C2 at a concrete 4-byte header declaring 4,294,967,295. -/
theorem C2_witness :
    clientReceiveLP [255, 255, 255, 255] .closed =
      (.error (.oversize 4294967295), []) ∧
    serverReceiveMessage [255, 255, 255, 255] .closed =
      (.verr 4294967295, []) :=
  C2_oversize [255, 255, 255, 255] .closed (by decide) (by decide)

/-- Witness for C3: a 1-byte stream that closes mid-header, and a frame
declaring 5 body bytes of which only one arrives. -/
theorem C3_witness :
    (clientReceiveLP [7] .closed = (.error (.connClosed 1 4), []) ∧
     serverReceiveMessage [7] .closed = (.eof, [])) ∧
    (clientReceiveLP [0, 0, 0, 5, 60] .closed =
       (.error (.connClosed 1 5), []) ∧
     serverReceiveMessage [0, 0, 0, 5, 60] .closed = (.eof, [])) :=
  ⟨(C3_amended [7]).1 (by decide),
   (C3_amended [0, 0, 0, 5, 60]).2 (by decide) (by decide) (by decide)⟩

/-- C6 (amended): `_dispatch` returns a response for every request object
whose `"type"` value is not a list or a dict — an unknown or missing type
yields `{"status": "error", "error": "Unknown command type: <type>"}` and
a raising handler yields an error response carrying its message and
traceback — but a list- or dict-valued type makes `handlers.get` raise
`TypeError` out of `_dispatch`, and a non-dict request raises
`AttributeError` on `request.get`; those two exceptions propagate and are
only converted downstream by `_handle_client`. -/
theorem C6_amended (H : PyStr → Json → HandlerRes) (o : JsonObj) :
    (∀ s : PyStr, (o.get (pyOf "type")).getD (.str (pyOf "")) = .str s →
      ∃ resp, dispatch H (.obj o) = .ok resp) ∧
    (∀ s : PyStr, (o.get (pyOf "type")).getD (.str (pyOf "")) = .str s →
      s ∉ handlerNames →
      dispatch H (.obj o) =
        .ok (errorResp (pyOf "Unknown command type: " ++ s))) ∧
    (∀ (s m tb : PyStr),
      (o.get (pyOf "type")).getD (.str (pyOf "")) = .str s →
      s ∈ handlerNames →
      H s ((o.get (pyOf "params")).getD (.obj .nil)) = .exn m tb →
      dispatch H (.obj o) = .ok (errorRespTb m tb)) ∧
    (∀ a : JsonArr, (o.get (pyOf "type")).getD (.str (pyOf "")) = .arr a →
      dispatch H (.obj o) = .error .typeError) ∧
    (∀ o2 : JsonObj, (o.get (pyOf "type")).getD (.str (pyOf "")) = .obj o2 →
      dispatch H (.obj o) = .error .typeError) ∧
    (∀ v : Json, (o.get (pyOf "type")).getD (.str (pyOf "")) = v →
      (∀ s : PyStr, v ≠ .str s) → (∀ a : JsonArr, v ≠ .arr a) →
      (∀ r : JsonObj, v ≠ .obj r) →
      dispatch H (.obj o) =
        .ok (errorResp (pyOf "Unknown command type: " ++ pyFormat v))) ∧
    (∀ req : Json, (∀ r : JsonObj, req ≠ .obj r) →
      dispatch H req = .error .attrError) := by
  refine ⟨?_, ?_, ?_, ?_, ?_, ?_, ?_⟩
  · intro s hgt
    rw [dispatch.eq_def]
    dsimp only
    rw [hgt]
    dsimp only
    by_cases hmem : s ∈ handlerNames
    · rw [if_pos hmem]
      exact ⟨runHandler (H s ((o.get (pyOf "params")).getD (.obj .nil))), rfl⟩
    · rw [if_neg hmem]
      exact ⟨errorResp (pyOf "Unknown command type: " ++ s), rfl⟩
  · intro s hgt hmem
    rw [dispatch.eq_def]
    dsimp only
    rw [hgt]
    dsimp only
    rw [if_neg hmem]
  · intro s m tb hgt hmem hh
    rw [dispatch.eq_def]
    dsimp only
    rw [hgt]
    dsimp only
    rw [if_pos hmem, hh]
    rfl
  · intro a hgt
    rw [dispatch.eq_def]
    dsimp only
    rw [hgt]
  · intro o2 hgt
    rw [dispatch.eq_def]
    dsimp only
    rw [hgt]
  · intro v hgt hns hna hno
    rcases v with - | b | n | vs | va | vo
    case str => exact absurd rfl (hns vs)
    case arr => exact absurd rfl (hna va)
    case obj => exact absurd rfl (hno vo)
    all_goals
      rw [dispatch.eq_def]
      dsimp only
      rw [hgt]
  · intro req hreq
    rcases req with - | b | n | rs | ra | ro
    case obj => exact absurd rfl (hreq ro)
    all_goals rfl

/-- A well-formed header followed by `n` body bytes: the server consumes
exactly the frame and decodes the body. -/
theorem serverRM_frame (n : Nat) (body s2 : List Nat) (e : RxEnd)
    (hlen : body.length = n) (hmax : n ≤ MAX_MESSAGE_SIZE) :
    serverReceiveMessage (be32 n ++ (body ++ s2)) e =
      (match loadsBytes body with
       | some j => (.ok j, s2)
       | none => (.jsonErr, s2)) := by
  have hM : MAX_MESSAGE_SIZE = 104857600 := rfl
  have hH : HEADER_SIZE = 4 := rfl
  have h4 : HEADER_SIZE ≤ (be32 n ++ (body ++ s2)).length := by
    simp only [List.length_append, be32_length]
    omega
  rw [serverReceiveMessage, recvExactS_enough _ _ e h4]
  dsimp only
  rw [hH, List.take_left' (be32_length _), List.drop_left' (be32_length _)]
  rw [be32val_be32 _ (by omega)]
  rw [if_neg (by omega)]
  rw [recvExactS_enough _ _ e (by rw [List.length_append]; omega)]
  dsimp only
  rw [List.take_left' hlen, List.drop_left' hlen]

theorem serverRM_oversize (s : List Nat) (e : RxEnd)
    (h4 : HEADER_SIZE ≤ s.length)
    (hover : MAX_MESSAGE_SIZE < be32val (s.take HEADER_SIZE)) :
    serverReceiveMessage s e =
      (.verr (be32val (s.take HEADER_SIZE)), s.drop HEADER_SIZE) := by
  rw [serverReceiveMessage, recvExactS_enough _ s e h4]
  dsimp only
  rw [if_pos hover]

theorem serverRM_short (s : List Nat) (h : s.length < HEADER_SIZE) :
    serverReceiveMessage s .closed = (.eof, []) ∧
    serverReceiveMessage s .osError = (.osErr, []) := by
  constructor <;> rw [serverReceiveMessage, recvExactS.eq_def,
    if_neg (by omega)]

/-- C7: in `_handle_client`, a decode error on an incoming message — a
malformed-JSON body or an oversize declared length — produces an error
response and the loop continues with the rest of the stream exactly as a
session that starts there (the connection is kept open); only
end-of-stream closes the session cleanly and only a transport-level
failure closes it as lost. -/
theorem C7_loop (H : PyStr → Json → HandlerRes) (W : Nat → Bool)
    (em : ExcTexts) (f k : Nat) (e : RxEnd) :
    (∀ (n : Nat) (body s2 : List Nat), body.length = n →
      n ≤ MAX_MESSAGE_SIZE → loadsBytes body = none → W k = true →
      serverLoop H W em (f + 1) k (be32 n ++ (body ++ s2)) e =
        (errorRespTb em.jsonMsg em.tb ::
          (serverLoop H W em f (k + 1) s2 e).1,
         (serverLoop H W em f (k + 1) s2 e).2)) ∧
    (∀ s : List Nat, HEADER_SIZE ≤ s.length →
      MAX_MESSAGE_SIZE < be32val (s.take HEADER_SIZE) → W k = true →
      serverLoop H W em (f + 1) k s e =
        (errorRespTb (pyOf "Message too large: " ++
            natRepr (be32val (s.take HEADER_SIZE))) em.tb ::
          (serverLoop H W em f (k + 1) (s.drop HEADER_SIZE) e).1,
         (serverLoop H W em f (k + 1) (s.drop HEADER_SIZE) e).2)) ∧
    (∀ s : List Nat, s.length < HEADER_SIZE →
      serverLoop H W em (f + 1) k s .closed = ([], .eofClean)) ∧
    (∀ s : List Nat, s.length < HEADER_SIZE →
      serverLoop H W em (f + 1) k s .osError = ([], .transport)) := by
  refine ⟨?_, ?_, ?_, ?_⟩
  · intro n body s2 hlen hmax hbad hW
    rw [serverLoop, serverRM_frame n body s2 e hlen hmax, hbad]
    dsimp only
    rw [hW, if_pos rfl]
  · intro s h4 hover hW
    rw [serverLoop, serverRM_oversize s e h4 hover]
    dsimp only
    rw [hW, if_pos rfl]
  · intro s h
    rw [serverLoop, (serverRM_short s h).1]
  · intro s h
    rw [serverLoop, (serverRM_short s h).2]


def c6H : PyStr → Json → HandlerRes :=
  fun _ _ => .exn (pyOf "boom") (pyOf "Traceback (most recent call last): ...")

def c6Unknown : JsonObj := .cons (pyOf "type") (.str (pyOf "unknown_cmd")) .nil

def c6Exec : JsonObj := .cons (pyOf "type") (.str (pyOf "exec")) .nil

/-- Request object whose `"type"` field is a list — decodable from the
wire (e.g. the body `\x7b"type": []\x7d`), so inside `_dispatch`'s
domain. -/
def c6ListType : JsonObj := .cons (pyOf "type") (.arr .nil) .nil

/-- C6 counterexample: a request whose `"type"` field is a list makes
`handlers.get(cmd_type)` hash an unhashable key, so `_dispatch` raises
`TypeError` instead of returning a response — refuting the original
claim that `_dispatch` always returns a response object and never lets
an exception propagate. -/
theorem C6_counterexample :
    dispatch c6H (.obj c6ListType) = .error .typeError := by
  decide

/-- Witness for C6: an unregistered type is answered with the error
response naming it, a raising handler with its message and trace, and a
list-valued type raises out of `_dispatch`. -/
theorem C6_witness :
    dispatch c6H (.obj c6Unknown) =
      .ok (errorResp (pyOf "Unknown command type: unknown_cmd")) ∧
    dispatch c6H (.obj c6Exec) =
      .ok (errorRespTb (pyOf "boom")
        (pyOf "Traceback (most recent call last): ...")) ∧
    dispatch c6H (.obj c6ListType) = .error .typeError :=
  ⟨(C6_amended c6H c6Unknown).2.1 (pyOf "unknown_cmd") (by decide) (by decide),
   (C6_amended c6H c6Exec).2.2.1 (pyOf "exec") (pyOf "boom")
     (pyOf "Traceback (most recent call last): ...") (by decide) (by decide)
     (by decide),
   (C6_amended c6H c6ListType).2.2.2.1 .nil (by decide)⟩

def c7W : Nat → Bool := fun _ => true

def c7Em : ExcTexts :=
  ⟨pyOf "Expecting value: line 1 column 1 (char 0)", pyOf "attr",
   pyOf "unhashable type", pyOf "tb"⟩

/-- Witness for C7: one malformed one-byte frame (body `{`) followed by
a clean close yields one error response and a clean session end; an
oversize header the same; a bare close ends cleanly with no response;
a transport failure ends as lost. -/
theorem C7_witness :
    serverLoop c6H c7W c7Em 2 0 (be32 1 ++ ([123] ++ [])) .closed =
      (errorRespTb c7Em.jsonMsg c7Em.tb ::
        (serverLoop c6H c7W c7Em 1 1 [] .closed).1,
       (serverLoop c6H c7W c7Em 1 1 [] .closed).2) ∧
    serverLoop c6H c7W c7Em 2 0 [255, 255, 255, 255] .closed =
      (errorRespTb (pyOf "Message too large: " ++
          natRepr (be32val ([255, 255, 255, 255].take HEADER_SIZE))) c7Em.tb ::
        (serverLoop c6H c7W c7Em 1 1
          ([255, 255, 255, 255].drop HEADER_SIZE) .closed).1,
       (serverLoop c6H c7W c7Em 1 1
          ([255, 255, 255, 255].drop HEADER_SIZE) .closed).2) ∧
    serverLoop c6H c7W c7Em 1 0 [] .closed = ([], .eofClean) ∧
    serverLoop c6H c7W c7Em 1 0 [] .osError = ([], .transport) :=
  ⟨(C7_loop c6H c7W c7Em 1 0 .closed).1 1 [123] [] (by decide) (by decide)
     (by decide) (by decide),
   (C7_loop c6H c7W c7Em 1 0 .closed).2.1 [255, 255, 255, 255] (by decide)
     (by decide) (by decide),
   (C7_loop c6H c7W c7Em 0 0 .closed).2.2.1 [] (by decide),
   (C7_loop c6H c7W c7Em 0 0 .osError).2.2.2 [] (by decide)⟩

theorem connectLoop_firstSuccess : ∀ (ds : List ℚ) (att : Nat → Bool)
    (i k : Nat), k ≤ ds.length → (∀ j, j < k → att (i + j) = false) →
    att (i + k) = true →
    connectLoop ds att i = (true, ds.take k, i + k + 1) := by
  intro ds
  induction ds with
  | nil =>
    intro att i k hk hprev hsucc
    have hk0 : k = 0 := by simpa using hk
    subst hk0
    rw [connectLoop]
    simp only [Nat.add_zero] at hsucc
    rw [hsucc]
    rfl
  | cons d ds ih =>
    intro att i k hk hprev hsucc
    cases k with
    | zero =>
      simp only [Nat.add_zero] at hsucc
      rw [connectLoop, if_pos hsucc]
      rfl
    | succ k2 =>
      have hfail : att i = false := by
        have := hprev 0 (by omega)
        simpa using this
      rw [connectLoop, if_neg (by rw [hfail]; simp)]
      have ihr := ih att (i + 1) k2 (by simpa using hk)
        (fun j hj => by
          have := hprev (j + 1) (by omega)
          rw [show i + 1 + j = i + (j + 1) from by omega]
          exact this)
        (by rw [show i + 1 + k2 = i + (k2 + 1) from by omega]; exact hsucc)
      rw [ihr, List.take_succ_cons]
      have harith : i + 1 + k2 + 1 = i + (k2 + 1) + 1 := by omega
      rw [harith]

theorem connectLoop_allFail : ∀ (ds : List ℚ) (att : Nat → Bool) (i : Nat),
    (∀ j, j ≤ ds.length → att (i + j) = false) →
    connectLoop ds att i = (false, ds, i + ds.length + 1) := by
  intro ds
  induction ds with
  | nil =>
    intro att i hfail
    rw [connectLoop]
    have := hfail 0 (by simp)
    simp only [Nat.add_zero] at this
    rw [this]
    rfl
  | cons d ds ih =>
    intro att i hfail
    have h0 : att i = false := by
      have := hfail 0 (by omega)
      simpa using this
    rw [connectLoop, if_neg (by rw [h0]; simp)]
    rw [ih att (i + 1) (fun j hj => by
      have := hfail (j + 1) (by simp only [List.length_cons]; omega)
      rw [show i + 1 + j = i + (j + 1) from by omega]
      exact this)]
    rw [List.length_cons]
    have harith : i + 1 + ds.length + 1 = i + (ds.length + 1) + 1 := by omega
    rw [harith]

theorem connectLoop_attempts_le : ∀ (ds : List ℚ) (att : Nat → Bool) (i : Nat),
    (connectLoop ds att i).2.2 ≤ i + ds.length + 1 := by
  intro ds
  induction ds with
  | nil => intro att i; rw [connectLoop]; simp
  | cons d ds ih =>
    intro att i
    rw [connectLoop]
    by_cases h : att i = true
    · rw [if_pos h]
      simp only [List.length_cons]
      omega
    · rw [if_neg h]
      have := ih att (i + 1)
      simp only [List.length_cons]
      omega

/-- C9: `connect()` is a no-op when already connected; otherwise it
makes at most `len(RECONNECT_DELAYS) + 1 = 6` attempts, returning as
soon as one succeeds having slept exactly the delays before the first
success, and if all six fail it raises a connection error identifying
the target host and port and the attempt count. -/
theorem C9_connect (cfg : BridgeCfg) (st : BridgeSt) (att : Nat → Bool) :
    (st.connected = true → st.hasSock = true →
      connect cfg st att = ⟨.alreadyConnected, st, [], 0⟩) ∧
    (¬(st.connected = true ∧ st.hasSock = true) → ∀ k, k ≤ 5 →
      (∀ j, j < k → att j = false) → att k = true →
      connect cfg st att =
        ⟨.ok, ⟨true, true, st.commandId⟩, RECONNECT_DELAYS.take k, k + 1⟩) ∧
    (¬(st.connected = true ∧ st.hasSock = true) →
      (∀ j, j ≤ 5 → att j = false) →
      connect cfg st att =
        ⟨.failed cfg.host cfg.port 6, disconnectSt st, RECONNECT_DELAYS, 6⟩) ∧
    (connect cfg st att).attempts ≤ 6 := by
  have hlen : RECONNECT_DELAYS.length = 5 := rfl
  refine ⟨?_, ?_, ?_, ?_⟩
  · intro hc hs
    rw [connect, if_pos ⟨hc, hs⟩]
  · intro hnc k hk hprev hsucc
    rw [connect, if_neg hnc]
    rw [connectLoop_firstSuccess RECONNECT_DELAYS att 0 k (by omega)
      (fun j hj => by simpa using hprev j hj) (by simpa using hsucc)]
    rw [if_pos rfl]
    have harith : 0 + k + 1 = k + 1 := by omega
    rw [harith]
  · intro hnc hfail
    rw [connect, if_neg hnc]
    rw [connectLoop_allFail RECONNECT_DELAYS att 0
      (fun j hj => by simpa using hfail j (by omega))]
    dsimp only
    rw [if_neg (by simp)]
    rfl
  · rw [connect]
    by_cases hc : st.connected = true ∧ st.hasSock = true
    · rw [if_pos hc]
      simp
    · rw [if_neg hc]
      have := connectLoop_attempts_le RECONNECT_DELAYS att 0
      dsimp only
      by_cases hs : (connectLoop RECONNECT_DELAYS att 0).1 = true
      · rw [if_pos hs]
        dsimp only
        omega
      · rw [if_neg hs]
        dsimp only
        omega


def cfgEx : BridgeCfg := ⟨pyOf "localhost", 9877, 30⟩

def c9Att : Nat → Bool := fun i => decide (2 ≤ i)

def c9AttFail : Nat → Bool := fun _ => false

/-- Witness for C9: an already-connected bridge, a third-attempt
success (delays 0.5 and 1.0 slept), and six failures. -/
theorem C9_witness :
    connect cfgEx ⟨true, true, 7⟩ c9Att =
      ⟨.alreadyConnected, ⟨true, true, 7⟩, [], 0⟩ ∧
    connect cfgEx freshBridge c9Att =
      ⟨.ok, ⟨true, true, 0⟩, RECONNECT_DELAYS.take 2, 3⟩ ∧
    connect cfgEx freshBridge c9AttFail =
      ⟨.failed cfgEx.host cfgEx.port 6, disconnectSt freshBridge,
        RECONNECT_DELAYS, 6⟩ :=
  ⟨(C9_connect cfgEx ⟨true, true, 7⟩ c9Att).1 rfl rfl,
   (C9_connect cfgEx freshBridge c9Att).2.1 (by decide) 2 (by decide)
     (by decide) (by decide),
   (C9_connect cfgEx freshBridge c9AttFail).2.2.1 (by decide)
     (fun j _ => rfl)⟩


/-- Helper: a connected manager never takes the reconnect-failure branch of
send_command. -/
theorem sendCommand_not_failed (cfg : BridgeCfg) (st : BridgeSt)
    (hc : st.connected = true) (hs : st.hasSock = true) (cok : Bool) :
    ¬(¬(st.connected = true ∧ st.hasSock = true) ∧ cok = false) :=
  fun h => h.1 ⟨hc, hs⟩

/-- C10: when send_command is called with an explicit timeout of 0 (a falsy
value, like the default None), the expression timeout or self.timeout makes
the effective timeout the manager's configured default, so the socket is set
to the default timeout, not to an immediate-timeout bound of 0. -/
theorem C10_zero (cfg : BridgeCfg) (st : BridgeSt) (ct : PyStr) (p : Json)
    (io : CallIO) (hc : st.connected = true) (hs : st.hasSock = true) :
    effTimeout (some 0) cfg.timeout = cfg.timeout ∧
    effTimeout none cfg.timeout = cfg.timeout ∧
    (sendCommand cfg st ct p (some 0) io).timeoutsSet = [cfg.timeout] := by
  have he : effTimeout (some 0) cfg.timeout = cfg.timeout := by
    rw [effTimeout]
    rw [if_pos rfl]
  refine ⟨he, rfl, ?_⟩
  rw [sendCommand.eq_def]
  rw [if_neg (sendCommand_not_failed cfg st hc hs io.connectOk)]
  dsimp only
  rw [hc, hs, he]
  repeat' split
  all_goals simp_all


/-- C5: when the decoded response is an object whose status field equals
"error", send_command raises GimpCommandError carrying the host-reported
message (the error field, defaulting to "Unknown GIMP error"), the command
type, and the optional traceback field; no except clause catches it, so the
connection state is untouched: still connected, socket open, and the command
counter advanced exactly once. -/
theorem C5_cmdError (cfg : BridgeCfg) (st : BridgeSt) (ct : PyStr) (p : Json)
    (tmo : Option ℚ) (io : CallIO) (o : JsonObj) (r : List Nat)
    (hc : st.connected = true) (hs : st.hasSock = true)
    (hsend : io.sendRes = .ok)
    (hsize : (dumpsBytes (requestPayload (st.commandId + 1) ct p)).length < 2 ^ 32)
    (hdec : clientReceiveLP io.rx io.rxEnd = (.ok (.obj o), r))
    (hstatus : o.get (pyOf "status") = some (.str (pyOf "error"))) :
    sendCommand cfg st ct p tmo io =
      ⟨.cmdError (o.getD (pyOf "error") (.str (pyOf "Unknown GIMP error"))) ct
        (o.get (pyOf "traceback")),
       ⟨true, true, st.commandId + 1⟩,
       [effTimeout tmo cfg.timeout], some (st.commandId + 1)⟩ := by
  rw [sendCommand.eq_def]
  rw [if_neg (sendCommand_not_failed cfg st hc hs io.connectOk)]
  dsimp only
  rw [hc, hs, hsend]
  rw [if_neg (by omega)]
  dsimp only
  rw [hdec]
  dsimp only
  rw [if_pos hstatus]
  simp


/-- C4 (amended): send_command forces a disconnect before raising a timeout
error (which carries the effective timeout bound) or a ConnectionError/OSError
failure, but NOT before the protocol errors: a GimpConnectionError raised
inside _receive_length_prefixed for a peer close or an oversized declared
length, and a json decode error, escape the except clauses uncaught, leaving
the manager still marked connected on a possibly desynchronized stream. -/
theorem C4_amended (cfg : BridgeCfg) (st : BridgeSt) (ct : PyStr) (p : Json)
    (tmo : Option ℚ) (io : CallIO)
    (hc : st.connected = true) (hs : st.hasSock = true) :
    (∀ q, (sendCommand cfg st ct p tmo io).outcome = .timeoutErr q →
      q = effTimeout tmo cfg.timeout ∧
      (sendCommand cfg st ct p tmo io).state.connected = false ∧
      (sendCommand cfg st ct p tmo io).state.hasSock = false) ∧
    ((sendCommand cfg st ct p tmo io).outcome = .connLost →
      (sendCommand cfg st ct p tmo io).state.connected = false ∧
      (sendCommand cfg st ct p tmo io).state.hasSock = false) ∧
    (∀ g n, (sendCommand cfg st ct p tmo io).outcome = .connClosedRaw g n →
      (sendCommand cfg st ct p tmo io).state.connected = true ∧
      (sendCommand cfg st ct p tmo io).state.hasSock = true) ∧
    (∀ len1, (sendCommand cfg st ct p tmo io).outcome = .oversizeRaw len1 →
      (sendCommand cfg st ct p tmo io).state.connected = true ∧
      (sendCommand cfg st ct p tmo io).state.hasSock = true) ∧
    ((sendCommand cfg st ct p tmo io).outcome = .decodeErr →
      (sendCommand cfg st ct p tmo io).state.connected = true ∧
      (sendCommand cfg st ct p tmo io).state.hasSock = true) := by
  rw [sendCommand.eq_def]
  rw [if_neg (sendCommand_not_failed cfg st hc hs io.connectOk)]
  dsimp only
  split
  · simp
  rcases hsr : io.sendRes
  case timedOut => simp [disconnectSt]
  case osError => simp [disconnectSt]
  case ok =>
    rcases hlp : clientReceiveLP io.rx io.rxEnd with
      ⟨(⟨g, n⟩ | len1 | - | - | -) | j, r⟩
    all_goals try simp [disconnectSt]
    rcases j with - | b | n | s | a | o2
    all_goals try simp [disconnectSt]
    split
    all_goals simp [disconnectSt]

/-- IO script answering with a frame whose declared length is 4294967295. -/
def ioOversize : CallIO := ⟨true, .ok, [255, 255, 255, 255], .closed⟩

/-- C4 counterexample: a response frame declaring a 4 GiB body makes
_receive_length_prefixed raise the size-violation GimpConnectionError, yet the
manager is left in the connected state, contradicting the claim that protocol
errors always force a disconnect. -/
theorem C4_counterexample :
    (sendCommand cfgEx ⟨true, true, 0⟩ (pyOf "ping") (.obj .nil) none
        ioOversize).outcome = .oversizeRaw 4294967295 ∧
    (sendCommand cfgEx ⟨true, true, 0⟩ (pyOf "ping") (.obj .nil) none
        ioOversize).state.connected = true ∧
    (sendCommand cfgEx ⟨true, true, 0⟩ (pyOf "ping") (.obj .nil) none
        ioOversize).state.hasSock = true := by
  decide

/-- C4 witness: the amended theorem instantiated at the oversized-frame call.
-/
theorem C4_witness :
    (sendCommand cfgEx ⟨true, true, 0⟩ (pyOf "ping") (.obj .nil) none
        ioOversize).state.connected = true ∧
    (sendCommand cfgEx ⟨true, true, 0⟩ (pyOf "ping") (.obj .nil) none
        ioOversize).state.hasSock = true :=
  (C4_amended cfgEx ⟨true, true, 0⟩ (pyOf "ping") (.obj .nil) none ioOversize
    rfl rfl).2.2.2.1 4294967295 (by decide)

/-- Error response object the host could answer with. -/
def respEx5 : JsonObj :=
  (JsonObj.nil.insert (pyOf "status") (.str (pyOf "error"))).insert
    (pyOf "error") (.str (pyOf "boom"))

/-- Length-prefixed frame carrying respEx5. -/
def rxEx5 : List Nat :=
  be32 (dumpsBytes (.obj respEx5)).length ++ dumpsBytes (.obj respEx5)

def ioEx5 : CallIO := ⟨true, .ok, rxEx5, .closed⟩

/-- C5 witness: a concrete error response frame yields GimpCommandError with
message "boom" and the manager still connected. -/
theorem C5_witness :
    sendCommand cfgEx ⟨true, true, 0⟩ (pyOf "ping") (.obj .nil) none ioEx5 =
      ⟨.cmdError (respEx5.getD (pyOf "error") (.str (pyOf "Unknown GIMP error")))
          (pyOf "ping") (respEx5.get (pyOf "traceback")),
       ⟨true, true, 0 + 1⟩, [effTimeout none cfgEx.timeout], some (0 + 1)⟩ :=
  C5_cmdError cfgEx ⟨true, true, 0⟩ (pyOf "ping") (.obj .nil) none ioEx5 respEx5 []
    rfl rfl rfl (by decide) (by decide) (by decide)

/-- C10 witness: with the default 30-second configuration, an explicit
timeout of 0 sets the socket timeout to 30, and so does None. -/
theorem C10_witness :
    effTimeout (some 0) cfgEx.timeout = cfgEx.timeout ∧
    effTimeout none cfgEx.timeout = cfgEx.timeout ∧
    (sendCommand cfgEx ⟨true, true, 0⟩ (pyOf "ping") (.obj .nil) (some 0)
        ⟨true, .timedOut, [], .closed⟩).timeoutsSet = [cfgEx.timeout] :=
  C10_zero cfgEx ⟨true, true, 0⟩ (pyOf "ping") (.obj .nil)
    ⟨true, .timedOut, [], .closed⟩ rfl rfl

/-- Helper: any send_command call that returns a response (rather than
raising a connection-level error) sent the id self._command_id + 1 assigned by
_next_id and leaves the manager connected with the counter advanced. -/
theorem sendCommand_ok_shape (cfg : BridgeCfg) (st : BridgeSt) (ct : PyStr)
    (p : Json) (tmo : Option ℚ) (io : CallIO)
    (h : ((sendCommand cfg st ct p tmo io).outcome).isOk = true) :
    (sendCommand cfg st ct p tmo io).sentId = some (st.commandId + 1) ∧
    (sendCommand cfg st ct p tmo io).state = ⟨true, true, st.commandId + 1⟩ := by
  revert h
  rw [sendCommand.eq_def]
  split
  · intro h; simp [SCOutcome.isOk] at h
  dsimp only
  split
  · intro h; simp [SCOutcome.isOk] at h
  rcases hsr : io.sendRes
  case timedOut => intro h; simp [SCOutcome.isOk] at h
  case osError => intro h; simp [SCOutcome.isOk] at h
  case ok =>
    dsimp only
    rcases hlp : clientReceiveLP io.rx io.rxEnd with
      ⟨(⟨g, n⟩ | len1 | - | - | -) | j, r⟩
    all_goals intro h
    all_goals try simp [SCOutcome.isOk] at h
    rcases j with - | b | n | s | a | o2
    all_goals try exact ⟨rfl, rfl⟩
    dsimp only
    split <;> exact ⟨rfl, rfl⟩

/-- Helper: over any run of sequential calls that all succeed, the ids put
into the sent payloads count up from the starting counter plus one. -/
theorem runCalls_ids (cfg : BridgeCfg)
    (calls : List (PyStr × Json × Option ℚ × CallIO)) : ∀ st : BridgeSt,
    ((runCalls cfg st calls).all fun r => r.outcome.isOk) = true →
    (runCalls cfg st calls).map (fun r => r.sentId) =
      (List.range calls.length).map fun i => some (st.commandId + i + 1) := by
  induction calls with
  | nil => intro st _; rfl
  | cons hd tl ih =>
    obtain ⟨ct, p, tmo, io⟩ := hd
    intro st hall
    rw [runCalls] at hall ⊢
    rw [List.all_cons, Bool.and_eq_true] at hall
    obtain ⟨h1, h2⟩ := hall
    obtain ⟨hid, hstate⟩ := sendCommand_ok_shape cfg st ct p tmo io h1
    rw [List.map_cons, hid]
    rw [hstate] at h2 ⊢
    rw [ih ⟨true, true, st.commandId + 1⟩ h2]
    rw [List.length_cons, List.range_succ_eq_map, List.map_cons, List.map_map]
    congr 1
    · simp
      intro a _
      omega

/-- C8: n successful sequential send_command calls on one freshly constructed
manager (command counter 0) put exactly the ids 1, 2, ..., n into the sent
payloads, one per call in order. -/
theorem C8_ids (cfg : BridgeCfg) (calls : List (PyStr × Json × Option ℚ × CallIO))
    (hall : ((runCalls cfg freshBridge calls).all fun r => r.outcome.isOk) = true) :
    (runCalls cfg freshBridge calls).map (fun r => r.sentId) =
      (List.range calls.length).map fun i => some (i + 1) := by
  have h := runCalls_ids cfg calls freshBridge hall
  rw [h]
  have hc : freshBridge.commandId = 0 := rfl
  have hf : (fun i => some (freshBridge.commandId + i + 1)) =
      fun i : Nat => some (i + 1) := by
    funext i
    rw [hc]
    exact congrArg some (by omega)
  rw [hf]

/-- IO script answering a minimal empty-object response frame. -/
def ioOk8 : CallIO := ⟨true, .ok, [0, 0, 0, 2, 123, 125], .closed⟩

theorem C8_witness :
    ((runCalls cfgEx freshBridge
        [(pyOf "a", .obj .nil, none, ioOk8), (pyOf "b", .obj .nil, none, ioOk8)]).all
      fun r => r.outcome.isOk) = true ∧
    (runCalls cfgEx freshBridge
        [(pyOf "a", .obj .nil, none, ioOk8), (pyOf "b", .obj .nil, none, ioOk8)]).map
      (fun r => r.sentId) = [some 1, some 2] := by
  refine ⟨by decide, ?_⟩
  rw [C8_ids cfgEx
    [(pyOf "a", .obj .nil, none, ioOk8), (pyOf "b", .obj .nil, none, ioOk8)]
    (by decide)]
  rfl

end GimpMcp
